import Mathlib

/-!
Verification development for the cross-source aggregation and consensus
engine of this repository (daily aggregators `generate_daily_final_report.py`
and `scripts/generate_daily_summary.py`, weekly aggregator
`scripts/generate_weekly_summary.py`).

Python strings are modelled as Lean `String` (a list of unicode scalar
values); Python float arithmetic on the small vote ratios is modelled with
exact rationals; Python `unicodedata.normalize("NFKC", ·)` and `str.lower()`
are modelled as character-wise tables covering the character classes the
normalizers manipulate (full-width punctuation and digits, ASCII letters) and
the identity elsewhere.
-/

namespace PyStr

/-- Character-wise model of `unicodedata.normalize("NFKC", s)`: full-width
punctuation / digits fold to their ASCII forms, the ideographic space folds
to a plain space, and every other character is left unchanged. -/
def nfkcTable : List (Char × Char) :=
  [('（', '('), ('）', ')'), ('　', ' '), ('！', '!'), ('，', ','),
   ('：', ':'), ('；', ';'), ('？', '?'), ('％', '%'), ('．', '.'),
   ('－', '-'), ('～', '~'),
   ('０', '0'), ('１', '1'), ('２', '2'), ('３', '3'), ('４', '4'),
   ('５', '5'), ('６', '6'), ('７', '7'), ('８', '8'), ('９', '9')]

def nfkcChar (c : Char) : Char :=
  (((nfkcTable.find? (fun p => p.1 = c)).map Prod.snd).getD c)

def pyNFKC (s : String) : String := ⟨s.data.map nfkcChar⟩

/-- Character-wise model of Python `str.lower()` (ASCII range; the
normalizers apply it after NFKC folding). -/
def lowerTable : List (Char × Char) :=
  [('A', 'a'), ('B', 'b'), ('C', 'c'), ('D', 'd'), ('E', 'e'), ('F', 'f'),
   ('G', 'g'), ('H', 'h'), ('I', 'i'), ('J', 'j'), ('K', 'k'), ('L', 'l'),
   ('M', 'm'), ('N', 'n'), ('O', 'o'), ('P', 'p'), ('Q', 'q'), ('R', 'r'),
   ('S', 's'), ('T', 't'), ('U', 'u'), ('V', 'v'), ('W', 'w'), ('X', 'x'),
   ('Y', 'y'), ('Z', 'z')]

def pyLowerChar (c : Char) : Char :=
  (((lowerTable.find? (fun p => p.1 = c)).map Prod.snd).getD c)

def pyLower (s : String) : String := ⟨s.data.map pyLowerChar⟩

/-- Python whitespace (`str.strip()` / regex `\s`), ASCII part; the
ideographic space has already been folded to ' ' by NFKC. -/
def isPySpace (c : Char) : Bool :=
  c = ' ' || c = '\t' || c = '\n' || c = '\x0b' || c = '\x0c' || c = '\r'

def stripList (l : List Char) : List Char :=
  ((l.dropWhile isPySpace).reverse.dropWhile isPySpace).reverse

/-- Python `str.strip()`. -/
def pyStrip (s : String) : String := ⟨stripList s.data⟩

/-- Worker for Python `str.replace(pat, rep)`: scans left to right; on a
match it emits `r` and skips the matched characters (`skip` counts the
characters of the match still to be consumed). `p` is always nonempty at
the call sites. -/
def replGo (p r : List Char) : Nat → List Char → List Char
  | _, [] => []
  | Nat.succ k, _ :: cs => replGo p r k cs
  | 0, c :: cs =>
    if p.isPrefixOf (c :: cs) then r ++ replGo p r (p.length - 1) cs
    else c :: replGo p r 0 cs

/-- Python `s.replace(pat, rep)` (all non-overlapping occurrences,
left to right). -/
def pyReplace (s pat rep : String) : String := ⟨replGo pat.data rep.data 0 s.data⟩

/-- Python `re.sub(r"\s+", "", t)`. -/
def removeSpaces (s : String) : String := ⟨s.data.filter (fun c => !(isPySpace c))⟩

/-- Python `re.sub(r"[c₁c₂…]", "", t)` for a character class. -/
def removeChars (bad : List Char) (s : String) : String :=
  ⟨s.data.filter (fun c => !(bad.contains c))⟩

/-- `re.fullmatch(r"[\-—–—]+", t)` is a match: nonempty and all dashes. -/
def dashChars : List Char := ['-', '—', '–']

def isDashRun (s : String) : Bool :=
  !(s.data.isEmpty) && s.data.all (fun c => dashChars.contains c)

def isAsciiDigit (c : Char) : Bool := '0' ≤ c && c ≤ '9'

/-- Flush a pending run of consecutive digits: a run of exactly six digits
is deleted (`re.sub(r"(?<!\d)\d{6}(?!\d)", "", t)` deletes precisely the
maximal digit runs of length six). -/
def flush6 (pend : List Char) : List Char :=
  if pend.length = 6 then [] else pend

def rm6go (pend : List Char) : List Char → List Char
  | [] => flush6 pend
  | c :: cs =>
    if isAsciiDigit c then rm6go (pend ++ [c]) cs
    else flush6 pend ++ c :: rm6go [] cs

/-- Python `re.sub(r"(?<!\d)\d{6}(?!\d)", "", t)`. -/
def removeSixDigitRuns (s : String) : String := ⟨rm6go [] s.data⟩

/-- Scanner deciding that no six consecutive ASCII digits occur (`k` is the
length of the digit run in progress). -/
def noSix (k : Nat) : List Char → Bool
  | [] => true
  | c :: cs =>
    if isAsciiDigit c then
      if k + 1 ≥ 6 then false else noSix (k + 1) cs
    else noSix 0 cs

end PyStr

namespace Agg

open PyStr

/-- `normalize_topic_name` (identical in `generate_daily_final_report.py`
lines 267-278 and `scripts/generate_daily_summary.py` lines 710-720). -/
def topicWords : List String :=
  ["etf", "指数", "基金", "定投", "主题", "方向", "板块", "赛道", "相关", "概念"]

def bracketChars : List Char :=
  ['[', ']', '\x7b', '\x7d', '<', '>', '《', '》', '“', '”', '\x22', '\x27', '\x60']

def normalize_topic_name (s : String) : String :=
  if s = "" then ""
  else
    let t := pyNFKC s
    let t := pyLower (pyStrip t)
    let t := pyReplace (pyReplace t "（" "(") "）" ")"
    let t := removeSpaces t
    let t := topicWords.foldl (fun t w => pyReplace t w "") t
    let t := removeChars bracketChars t
    let t := pyReplace (pyReplace t "(" "") ")" ""
    t

/-- The ten strings matched by `^华安黄金(?:易)?etf联接[abc]?$`. -/
def huaanLinked : List String :=
  ["华安黄金etf联接", "华安黄金etf联接a", "华安黄金etf联接b", "华安黄金etf联接c",
   "华安黄金易etf联接", "华安黄金易etf联接a", "华安黄金易etf联接b", "华安黄金易etf联接c"]

/-- The strings matched by `^华安黄金(?:易)?etf$`. -/
def huaanPlain : List String := ["华安黄金etf", "华安黄金易etf"]

def huaanRule1 (t : String) : String := if t ∈ huaanLinked then "华安黄金" else t

def huaanRule2 (t : String) : String := if t ∈ huaanPlain then "华安黄金" else t

/-- The substrings deleted (or, for the first, rewritten) by
`normalize_item_name`, in source order. -/
def itemReplacements : List (String × String) :=
  [("创新药产业", "创新药"), ("人民币", ""), ("中证申万", ""), ("中证全指", ""),
   ("中证", ""), ("申万", ""), ("全指", ""), ("发起式", ""), ("发起", "")]

/-- `normalize_item_name` (`scripts/generate_daily_summary.py` lines
729-753). -/
def normalize_item_name (s : String) : String :=
  if s = "" then ""
  else
    let t := pyLower (pyStrip (pyNFKC s))
    if isDashRun t then ""
    else
      let t := pyReplace (pyReplace t "（" "(") "）" ")"
      let t := removeSpaces t
      if isDashRun t then ""
      else
        let t := removeSixDigitRuns t
        let t := itemReplacements.foldl (fun t pr => pyReplace t pr.1 pr.2) t
        let t := removeChars bracketChars t
        let t := pyReplace (pyReplace t "(" "") ")" ""
        huaanRule2 (huaanRule1 t)


end Agg

namespace Util

/-- Python string comparison (code-point lexicographic) as a relation on
the underlying character lists. -/
def strLe (a b : String) : Prop := a.data ≤ b.data

instance : DecidableRel strLe := fun a b => inferInstanceAs (Decidable (a.data ≤ b.data))

/-- Membership lookup in an association list modelling a Python `dict`
(keys unique, insertion order preserved). -/
def alGet {β : Type} (d : List (String × β)) (k : String) : Option β :=
  (d.find? (fun kv => kv.1 = k)).map Prod.snd

/-- `d[k] = v` on a Python `dict`: in-place update if the key exists,
append otherwise. -/
def alSet {β : Type} (d : List (String × β)) (k : String) (v : β) : List (String × β) :=
  if (d.find? (fun kv => kv.1 = k)).isSome then
    d.map (fun kv => if kv.1 = k then (k, v) else kv)
  else d ++ [(k, v)]

/-- Python `w in d` (substring test). -/
def hasSub (w d : String) : Prop := w.data <:+: d.data

instance : DecidableRel hasSub := fun w d => inferInstanceAs (Decidable (w.data <:+: d.data))

/-- Python `sorted(xs)` for strings (distinct or not). -/
def pySorted (xs : List String) : List String := List.insertionSort strLe xs

end Util

namespace GDF

open PyStr Util Agg

/-- `f"{x:.2f}%"` modelled on exact rationals: round to two decimals
(half to even, as float formatting does on these values) and render. -/
def round2 (x : ℚ) : ℤ :=
  let y := x * 100
  let f := Rat.floor y
  if y - f < 1/2 then f
  else if y - f > 1/2 then f + 1
  else if f % 2 = 0 then f else f + 1

def format_pct (x : ℚ) : String :=
  let c := round2 x
  let a := c.natAbs
  let frac := a % 100
  (if c < 0 then "-" else "") ++ toString (a / 100) ++ "." ++
    (if frac < 10 then "0" else "") ++ toString frac ++ "%"

def MODEL_ORDER_FIXED : List String :=
  ["DeepSeek", "Gemini", "GPT-5.2", "Grok-4", "GLM-4.7", "Kimi", "MiniMax-M2.1", "TraeAI"]

def CATEGORY_ORDER_FIXED : List String := ["债券", "中股", "期货", "美股"]

def model_columns (models_present : List String) : List String :=
  (MODEL_ORDER_FIXED.filter (fun m => m ∈ models_present)) ++
    pySorted (models_present.filter (fun m => m ∉ MODEL_ORDER_FIXED))

structure CellCandidate where
  display : String
  pct : Option ℚ
  direction_raw : Option String
  direction_stat : Option String
  raw_model : String
deriving DecidableEq

/-- `direction_to_stat(direction, is_category=·)` (lines 155-182). -/
def direction_to_stat (direction : Option String) (is_category : Bool) : Option String :=
  match direction with
  | none => none
  | some d0 =>
    if d0 = "" then none
    else
      let d := pyStrip d0
      if hasSub "维持" d ∨ hasSub "不变" d ∨ hasSub "保持" d then some "不变"
      else
        let ctx : Option String :=
          if is_category then
            if hasSub "小幅增配" d then some "增"
            else if hasSub "小幅减配" d then some "减"
            else if hasSub "增配" d then some "增"
            else if hasSub "减配" d then some "减"
            else none
          else
            if hasSub "增持" d then some "增"
            else if hasSub "减持" d then some "减"
            else none
        match ctx with
        | some r => some r
        | none =>
          if hasSub "增" d then some "增"
          else if hasSub "减" d ∨ hasSub "暂停" d ∨ hasSub "停止" d then some "减"
          else some "不变"

/-- `cell_display(pct, direction)` (lines 185-192). -/
def cell_display (pct : Option ℚ) (direction : Option String) : String :=
  match pct, direction with
  | none, none => "—"
  | none, some d => "—（" ++ d ++ "）"
  | some p, none => format_pct p ++ "（—）"
  | some p, some d => format_pct p ++ "（" ++ d ++ "）"

/-- The Python truthiness test `c.direction_stat` on an `Optional[str]`. -/
def statTruthy (c : CellCandidate) : Bool :=
  c.direction_stat != none && c.direction_stat != some ""

/-- Candidate ordering used by `longest.sort(key=lambda c: c.raw_model,
reverse=True)`. -/
def rawModelGe (a b : CellCandidate) : Prop := strLe b.raw_model a.raw_model

instance : DecidableRel rawModelGe :=
  fun a b => inferInstanceAs (Decidable (strLe b.raw_model a.raw_model))

/-- `select_best_candidate` (lines 353-362). -/
def select_best_candidate (cands : List CellCandidate) : Option CellCandidate :=
  match cands with
  | [] => none
  | _ :: _ =>
    let non_missing := cands.filter (fun c => pyStrip c.display != "—")
    let pool := if non_missing.isEmpty then cands else non_missing
    let max_len := (pool.map (fun c => c.display.data.length)).foldl max 0
    let longest := pool.filter (fun c => c.display.data.length == max_len)
    (List.insertionSort rawModelGe longest).head?

/-- The usable candidates of `summarize_consensus`:
`[c for c in candidates if c and c.direction_stat]`. -/
def usableOf (candidates : List (Option CellCandidate)) : List CellCandidate :=
  (candidates.filterMap id).filter (fun c => statTruthy c)

/-- The bias strings derived from `top_dirs` (the dict lookups
`{"增": "偏增", "减": "偏减", "不变": "偏不变"}[top_dirs[0]]` resp.
`top_dirs[0]` when a single plurality direction exists). -/
def biasOf : List String → String
  | [d] => if d = "增" then "偏增" else if d = "减" then "偏减" else "偏不变"
  | _ => "无明显偏向"

def biasForOf : List String → String
  | [d] => d
  | _ => "无明显偏向"

/-- `summarize_consensus` (lines 365-411): returns
(consistency, summary). -/
def summarize_consensus (candidates : List (Option CellCandidate)) : String × String :=
  let usable := usableOf candidates
  if usable.isEmpty then ("分歧（无明显偏向）", "数据不足；范围 —–—")
  else
    let cInc := usable.countP (fun c => c.direction_stat == some "增")
    let cDec := usable.countP (fun c => c.direction_stat == some "减")
    let cFlat := usable.countP (fun c => c.direction_stat == some "不变")
    let pcts := usable.filterMap (fun c => c.pct)
    let n := usable.length
    let max_vote := max cInc (max cDec cFlat)
    let top_dirs := (([("增", cInc), ("减", cDec), ("不变", cFlat)] :
        List (String × Nat)).filter (fun kv => kv.2 == max_vote)).map Prod.fst
    let bias := biasOf top_dirs
    let bias_for_consensus := biasForOf top_dirs
    let consistency :=
      if n = 1 then "分歧（" ++ bias ++ "）"
      else if max_vote = n then "一致（" ++ bias_for_consensus ++ "）"
      else if ((max_vote : ℚ) / n ≥ 0.75) then "基本一致（" ++ bias ++ "）"
      else "分歧（" ++ bias ++ "）"
    let range_part :=
      match pcts with
      | [] => "范围 —–—"
      | p :: rest =>
        "范围 " ++ format_pct (rest.foldl min p) ++ "–" ++ format_pct (rest.foldl max p)
    let summary :=
      if n = 1 then
        match pcts with
        | p :: _ => "数据不足；范围 " ++ format_pct p ++ "–" ++ format_pct p
        | [] => "数据不足；" ++ range_part
      else
        toString cInc ++ "增/" ++ toString cDec ++ "减/" ++ toString cFlat ++ "不变；" ++ range_part
    (consistency, summary)

/-- `render_table` (lines 414-423). -/
def esc (s : String) : String :=
  pyStrip (pyReplace (if s = "" then "—" else s) "\n" " ")

def render_table (headers : List String) (rows : List (List String)) : String :=
  let lines :=
    ("| " ++ String.intercalate " | " (headers.map esc) ++ " |") ::
    ("|" ++ String.intercalate "|" (headers.map (fun _ => "---")) ++ "|") ::
    rows.map (fun r => "| " ++ String.intercalate " | " (r.map esc) ++ " |")
  String.intercalate "\n" lines

end GDF


namespace GDF

open PyStr Util Agg

structure ThemeEntry where
  topic : String
  topic_norm : String
  pct : Option ℚ
  caliber : String
  display : String
  raw_model : String
deriving DecidableEq

/-- `topic_tokens` (lines 281-289): the regex
`[一-鿿]{2,}|[a-z0-9]{2,}` collects the maximal same-class runs of
length at least two. -/
def isCJK (c : Char) : Bool := 0x4e00 ≤ c.toNat && c.toNat ≤ 0x9fff

def isLowAl (c : Char) : Bool := ('a' ≤ c && c ≤ 'z') || ('0' ≤ c && c ≤ '9')

def tokFlush (pend : List Char) : List String :=
  if pend.length ≥ 2 then [⟨pend⟩] else []

def tokGo (pend : List Char) (cls : Nat) : List Char → List String
  | [] => tokFlush pend
  | c :: cs =>
    let cl := if isCJK c then 1 else if isLowAl c then 2 else 0
    if cl = 0 then tokFlush pend ++ tokGo [] 0 cs
    else if cl = cls then tokGo (pend ++ [c]) cls cs
    else tokFlush pend ++ tokGo [c] cl cs

def findTokens (s : String) : List String := tokGo [] 0 s.data

def bigrams : List Char → List String
  | a :: b :: rest => (⟨[a, b]⟩ : String) :: bigrams (b :: rest)
  | _ => []

def topic_tokens (norm : String) : List String :=
  if norm = "" then []
  else
    let tokens := findTokens norm
    if tokens.length ≥ 2 then tokens
    else if norm.data.length ≥ 2 then bigrams norm.data
    else [norm]

/-- A theme group; `tokens` models the Python `set` as a duplicate-free
list (only intersection sizes and unions are observed). -/
structure ThemeGroup where
  names : List String
  norms : List String
  tokens : List String
  per_model : List (String × List ThemeEntry)
deriving DecidableEq

/-- `is_similar_topic` (lines 434-443). -/
def is_similar_topic (entry : ThemeEntry) (group : ThemeGroup) : Prop :=
  entry.topic_norm ≠ "" ∧
    (entry.topic_norm ∈ group.norms ∨
     (∃ gn ∈ group.norms, gn ≠ "" ∧
        (hasSub entry.topic_norm gn ∨ hasSub gn entry.topic_norm)) ∨
     ((topic_tokens entry.topic_norm).dedup.filter (fun t => t ∈ group.tokens)).length ≥ 2)

instance (entry : ThemeEntry) (group : ThemeGroup) : Decidable (is_similar_topic entry group) :=
  inferInstanceAs (Decidable (_ ∧ _))

/-- `pick_main_name` (lines 446-450): most frequent raw name, ties broken
by shortest then lexicographic. -/
def pickRel (a b : String × Nat) : Prop :=
  b.2 < a.2 ∨ (b.2 = a.2 ∧
    (a.1.data.length < b.1.data.length ∨
     (a.1.data.length = b.1.data.length ∧ a.1.data ≤ b.1.data)))

instance : DecidableRel pickRel :=
  fun a b => inferInstanceAs (Decidable (_ ∨ _))

def freqOf (names : List String) : List (String × Nat) :=
  names.foldl (fun d n => alSet d n ((alGet d n).getD 0 + 1)) []

def pick_main_name (names : List String) : String :=
  match List.insertionSort pickRel (freqOf names) with
  | [] => ""
  | kv :: _ => kv.1

/-- `closeness` (lines 453-460), as the sort key of the Python tuple
`(tier, -len/ius, topic)`. -/
def closeness (entry : ThemeEntry) (main_norm : String) : Lex (ℕ × Lex (ℤ × List Char)) :=
  let en := entry.topic_norm
  if en = main_norm then toLex (0, toLex (-(entry.display.data.length : ℤ), entry.topic.data))
  else if en ≠ "" ∧ main_norm ≠ "" ∧ (hasSub en main_norm ∨ hasSub main_norm en) then
    toLex (1, toLex (-(entry.display.data.length : ℤ), entry.topic.data))
  else
    let common := ((topic_tokens en).dedup.filter
      (fun t => t ∈ (topic_tokens main_norm).dedup)).length
    toLex (2, toLex (-(common : ℤ), entry.topic.data))

def closenessRel (main_norm : String) (a b : ThemeEntry) : Prop :=
  closeness a main_norm ≤ closeness b main_norm

instance (main_norm : String) : DecidableRel (closenessRel main_norm) :=
  fun a b => inferInstanceAs (Decidable (_ ≤ _))

/-- One step of the greedy grouping loop (lines 562-580): join the first
matching existing group, else start a new group at the end. -/
def placeTheme (model : String) (te : ThemeEntry) : List ThemeGroup → List ThemeGroup
  | [] => [⟨[te.topic], [te.topic_norm], (topic_tokens te.topic_norm).dedup, [(model, [te])]⟩]
  | g :: gs =>
    if is_similar_topic te g then
      { names := g.names ++ [te.topic]
        norms := g.norms ++ [te.topic_norm]
        tokens := (g.tokens ++ topic_tokens te.topic_norm).dedup
        per_model := alSet g.per_model model ((alGet g.per_model model).getD [] ++ [te]) } :: gs
    else g :: placeTheme model te gs

/-- The per-document parse results consumed by `main` (the pure text
parsers `parse_categories` / `parse_items` / `parse_themes` produce these;
`cats` / `items` are the Python dicts in insertion order). -/
structure ParsedDoc where
  raw_model : String
  canon : String
  cat_order : List String
  cats : List (String × CellCandidate)
  item_order : List String
  items : List (String × CellCandidate)
  themes : List ThemeEntry
  no_new : Bool

/-- Accumulator state of the per-document loop in `main`
(lines 491-519). -/
structure DailyAcc where
  cat_cands : List (String × List (String × List CellCandidate))
  item_cands : List (String × List (String × List CellCandidate))
  first_seen_item : List (String × Nat)
  model_theme_entries : List (String × List ThemeEntry)
  model_no_new : List (String × Bool)

def addCand (d : List (String × List (String × List CellCandidate)))
    (canon key : String) (cand : CellCandidate) :
    List (String × List (String × List CellCandidate)) :=
  let inner := (alGet d canon).getD []
  alSet d canon (alSet inner key ((alGet inner key).getD [] ++ [cand]))

def stepDoc (acc : DailyAcc) (doc : ParsedDoc) : DailyAcc :=
  let cc := doc.cats.foldl (fun d kv => addCand d doc.canon kv.1 kv.2) acc.cat_cands
  let fs := doc.item_order.foldl
    (fun fs key => if (alGet fs key).isSome then fs else fs ++ [(key, fs.length)])
    acc.first_seen_item
  let ic := doc.items.foldl (fun d kv => addCand d doc.canon kv.1 kv.2) acc.item_cands
  let nn := alSet acc.model_no_new doc.canon
    (((alGet acc.model_no_new doc.canon).getD false) || doc.no_new)
  let mte := doc.themes.foldl
    (fun d te => alSet d doc.canon ((alGet d doc.canon).getD [] ++ [te]))
    acc.model_theme_entries
  ⟨cc, ic, fs, mte, nn⟩

def initAcc (model_cols : List String) : DailyAcc :=
  ⟨model_cols.map (fun m => (m, [])), model_cols.map (fun m => (m, [])), [],
   model_cols.map (fun m => (m, [])), model_cols.map (fun m => (m, false))⟩

/-- Sort key of `cats.sort(key=lambda k: (0, cat_priority[k]) if k in
cat_priority else (1, k))`; the trailing `k.data` component never
discriminates in the first branch (the fixed priorities are distinct) and
makes the key injective. -/
def catKey (k : String) : Lex (ℕ × Lex (ℕ × List Char)) :=
  if k ∈ CATEGORY_ORDER_FIXED then
    toLex (0, toLex (CATEGORY_ORDER_FIXED.indexOf k, k.data))
  else toLex (1, toLex (0, k.data))

def catRel (a b : String) : Prop := catKey a ≤ catKey b

instance : DecidableRel catRel := fun a b => inferInstanceAs (Decidable (_ ≤ _))

/-- Sort key of `items.sort(key=lambda k: (first_seen_item.get(k, 10**9),
k))`. -/
def itemKey (first_seen : List (String × Nat)) (k : String) : Lex (ℕ × List Char) :=
  toLex ((alGet first_seen k).getD (10 ^ 9), k.data)

def itemRel (first_seen : List (String × Nat)) (a b : String) : Prop :=
  itemKey first_seen a ≤ itemKey first_seen b

instance (fs : List (String × Nat)) : DecidableRel (itemRel fs) :=
  fun a b => inferInstanceAs (Decidable (_ ≤ _))

/-- One row of the category/item tables (lines 531-539 resp. 547-555):
the entity name, one selected display per model column, then the
consistency and summary cells. -/
def rowFor (cands : List (String × List (String × List CellCandidate)))
    (model_cols : List String) (key : String) : List String :=
  let merged := model_cols.map
    (fun m => select_best_candidate ((alGet ((alGet cands m).getD []) key).getD []))
  let cs := summarize_consensus merged
  (key :: merged.map (fun b => match b with | some c => c.display | none => "—")) ++ [cs.1, cs.2]

/-- `consistency.startswith("一致") or consistency.startswith("基本一致")`
(lines 541, 557). -/
def isConsensusRow (row : List String) : Prop :=
  match row.reverse with
  | _ :: consistency :: _ =>
    "一致".data <+: consistency.data ∨ "基本一致".data <+: consistency.data
  | _ => False

instance (row : List String) : Decidable (isConsensusRow row) := by
  unfold isConsensusRow
  match row.reverse with
  | [] => exact inferInstanceAs (Decidable False)
  | [_] => exact inferInstanceAs (Decidable False)
  | _ :: _ :: _ => exact inferInstanceAs (Decidable (_ ∨ _))

/-- Key order of `sorted(set(g.names), key=lambda s: (len(s), s))`. -/
def pickLenRel (a b : String) : Prop :=
  a.data.length < b.data.length ∨ (a.data.length = b.data.length ∧ a.data ≤ b.data)

instance : DecidableRel pickLenRel := fun a b => inferInstanceAs (Decidable (_ ∨ _))

/-- The per-group theme row plus its contribution to the `异同` notes
(lines 592-621). -/
def themeRow (model_cols : List String) (model_no_new : List (String × Bool))
    (g : ThemeGroup) (main : String) (proposers : List String) : List String :=
  let main_norm := normalize_topic_name main
  let distinct_names := List.insertionSort pickLenRel (g.names.dedup)
  let parts0 : List String :=
    if 1 < distinct_names.length then ["合并：" ++ String.intercalate " / " distinct_names]
    else []
  let step := fun (acc : List String × List String) (m : String) =>
    match alGet g.per_model m with
    | none => (acc.1 ++ ["—"], acc.2)
    | some entries =>
      match List.insertionSort (closenessRel main_norm) entries with
      | [] => (acc.1 ++ ["—"], acc.2)
      | best :: _ =>
        let others := entries.erase best
        let parts' :=
          if others.isEmpty then acc.2
          else acc.2 ++
            [m ++ " 另提：" ++ String.intercalate " / " (pySorted (others.map (fun o => o.topic)).dedup)]
        (acc.1 ++ [best.display], parts')
  let cellsParts := model_cols.foldl step ([main], parts0)
  let parts1 :=
    match proposers with
    | [p] => cellsParts.2 ++ ["仅 " ++ p ++ " 提出"]
    | _ => cellsParts.2
  let no_new_models := model_cols.filter
    (fun m => ((alGet model_no_new m).getD false) && decide (m ∉ proposers))
  let parts2 :=
    if no_new_models.isEmpty then parts1
    else parts1 ++ ["其中 " ++ String.intercalate " / " no_new_models ++ " 明确不新增"]
  cellsParts.1 ++ [if parts2.isEmpty then "—" else String.intercalate "；" parts2]

/-- Key order of `group_meta.sort(key=lambda x: (-len(x[2]), x[1]))`. -/
def metaRel (a b : ThemeGroup × String × List String) : Prop :=
  b.2.2.length < a.2.2.length ∨ (b.2.2.length = a.2.2.length ∧ strLe a.2.1 b.2.1)

instance : DecidableRel metaRel := fun a b => inferInstanceAs (Decidable (_ ∨ _))

/-- The whole of `main` (lines 478-643) after the pure per-file parsing,
as a function of the parsed documents (in input file-name order), the
report date, and the iteration orders that Python's `set` produced for
`all_cats` / `all_items` (the only run-to-run-varying state). -/
def buildDailyReport (dateStr : String) (parsed : List ParsedDoc)
    (catIter itemIter : List String) : String :=
  let model_cols := model_columns (pySorted (parsed.map (fun d => d.canon)).dedup)
  let acc := parsed.foldl stepDoc (initAcc model_cols)
  let cats := List.insertionSort catRel catIter
  let items := List.insertionSort (itemRel acc.first_seen_item) itemIter
  let cat_headers := ("大板块" :: model_cols) ++ ["一致性", "分歧摘要"]
  let cat_rows := cats.map (rowFor acc.cat_cands model_cols)
  let cat_rows_consensus := cat_rows.filter (fun r => decide (isConsensusRow r))
  let item_headers := ("标的" :: model_cols) ++ ["一致性", "分歧摘要"]
  let item_rows := items.map (rowFor acc.item_cands model_cols)
  let item_rows_consensus := item_rows.filter (fun r => decide (isConsensusRow r))
  let groups := model_cols.foldl
    (fun gs m => ((alGet acc.model_theme_entries m).getD []).foldl
      (fun gs te => placeTheme m te gs) gs)
    []
  let theme_headers := ("主题/方向" :: model_cols) ++ ["异同"]
  let group_meta := groups.map
    (fun g => (g, pick_main_name g.names,
      model_cols.filter (fun m => (alGet g.per_model m).isSome)))
  let group_meta := List.insertionSort metaRel group_meta
  let theme_rows := group_meta.map
    (fun x => themeRow model_cols acc.model_no_new x.1 x.2.1 x.2.2)
  let md_parts :=
    ["# 投资总结（" ++ dateStr ++ "）", "",
     "## 1. 大板块比例调整建议（按大类横向对比）",
     render_table cat_headers cat_rows, "",
     "### 一致建议",
     render_table cat_headers cat_rows_consensus, "",
     "## 2. 定投计划逐项建议（按标的横向对比）",
     render_table item_headers item_rows, "",
     "### 一致建议",
     render_table item_headers item_rows_consensus, "",
     "## 3. 新的定投方向建议（按主题横向对比）",
     render_table theme_headers theme_rows, ""]
  String.intercalate "\n" md_parts

end GDF

namespace GDS

open PyStr Util Agg

/-- `select_best_candidate` (`scripts/generate_daily_summary.py` lines
1235-1291; the candidate dataclass is the same as in
`generate_daily_final_report.py`). When every candidate is missing it
returns the largest `raw_model` ignoring display length. -/
def select_best_candidate (cands : List GDF.CellCandidate) : Option GDF.CellCandidate :=
  match cands with
  | [] => none
  | _ :: _ =>
    let non_missing := cands.filter (fun c => pyStrip c.display != "—")
    match non_missing with
    | [] => (List.insertionSort GDF.rawModelGe cands).head?
    | _ :: _ =>
      let max_len := (non_missing.map (fun c => c.display.data.length)).foldl max 0
      let longest := non_missing.filter (fun c => c.display.data.length == max_len)
      (List.insertionSort GDF.rawModelGe longest).head?

/-- `bias_dir` / `bias_str` derived from `top_dirs` (lines 1310-1315). -/
def biasDirOf : List String → Option String
  | [d] => some d
  | _ => none

def biasStrOf : List String → String
  | [d] => "偏" ++ d
  | _ => "无明显偏向"

/-- `summarize_consensus` (lines 1293-1335). Unlike the final-report
variant this one increments `counts[c.direction_stat]` without a
membership guard; a usable candidate whose stat is outside the three vote
classes raises `KeyError`, modelled as `none`. -/
def summarize_consensus (candidates : List (Option GDF.CellCandidate)) :
    Option (String × String) :=
  let usable := GDF.usableOf candidates
  if usable.isEmpty then some ("分歧（无明显偏向）", "数据不足；范围 —–—")
  else if usable.all (fun c =>
      c.direction_stat == some "增" || c.direction_stat == some "减" ||
        c.direction_stat == some "不变") then
    let cInc := usable.countP (fun c => c.direction_stat == some "增")
    let cDec := usable.countP (fun c => c.direction_stat == some "减")
    let cFlat := usable.countP (fun c => c.direction_stat == some "不变")
    let pcts := usable.filterMap (fun c => c.pct)
    let n := usable.length
    let max_vote := max cInc (max cDec cFlat)
    let top_dirs := (([("增", cInc), ("减", cDec), ("不变", cFlat)] :
        List (String × Nat)).filter (fun kv => kv.2 == max_vote)).map Prod.fst
    let bias_dir : Option String := biasDirOf top_dirs
    let bias_str := biasStrOf top_dirs
    let ratio := (max_vote : ℚ) / n
    let cons0 :=
      if ratio = 1 then
        match bias_dir with
        | some d => "一致（" ++ d ++ "）"
        | none => "一致（无明显偏向）"
      else if ratio ≥ 0.75 then "基本一致（" ++ bias_str ++ "）"
      else "分歧（" ++ bias_str ++ "）"
    let cons := if n = 1 then "分歧（" ++ bias_str ++ "）" else cons0
    let range_str :=
      match pcts with
      | [] => "—–—"
      | p :: rest =>
        GDF.format_pct (rest.foldl min p) ++ "–" ++ GDF.format_pct (rest.foldl max p)
    let summ :=
      if n = 1 then "数据不足；范围 " ++ range_str
      else
        toString cInc ++ "增/" ++ toString cDec ++ "减/" ++ toString cFlat ++
          "不变；范围 " ++ range_str
    some (cons, summ)
  else none

/-- `item_tokens` (lines 755-760): overlapping bigrams. -/
def item_tokens (norm : String) : List String :=
  if norm = "" then []
  else if norm.data.length ≥ 2 then GDF.bigrams norm.data
  else [norm]

/-- `re.sub(r"[abc]$", "", norm)`. -/
def stripTrailingABC (n : String) : String :=
  match n.data.getLast? with
  | some c => if c = 'a' ∨ c = 'b' ∨ c = 'c' then ⟨n.data.dropLast⟩ else n
  | none => n

/-- `re.sub(r"(?:联接)?[abc]$", "", norm)`. -/
def stripLinkABC (n : String) : String :=
  match n.data.reverse with
  | x :: '接' :: '联' :: rest =>
    if x = 'a' ∨ x = 'b' ∨ x = 'c' then ⟨rest.reverse⟩ else stripTrailingABC n
  | _ => stripTrailingABC n

/-- `item_norm_variants` (lines 784-791); the Python `set` is modelled as
a duplicate-free list (downstream use is order-insensitive). -/
def item_norm_variants (norm : String) : List String :=
  if norm = "" then []
  else ([norm, stripTrailingABC norm, stripLinkABC norm].dedup).filter (fun x => x != "")

/-- `jaccard_bigrams` (lines 793-804). -/
def jaccard_bigrams (a b : String) : ℚ :=
  if a = "" ∨ b = "" then 0
  else
    let ta := (item_tokens a).dedup
    let tb := (item_tokens b).dedup
    if ta.isEmpty ∨ tb.isEmpty then 0
    else
      let inter := (ta.filter (fun t => t ∈ tb)).length
      let union := (ta ++ tb.filter (fun t => t ∉ ta)).length
      if union = 0 then 0 else (inter : ℚ) / union

/-- One entry of the authoritative `investment_plan` list after the
cleaning in `load_strategy_investment_plan_items` (lines 806-827). -/
structure PlanItem where
  fund_name : String
  fund_code : String
deriving DecidableEq

/-- `source_norm_to_names` built in lines 879-883 / 1454-1458. -/
def buildNormToNames (source_names : List String) : List (String × List String) :=
  source_names.foldl
    (fun d nm =>
      (item_norm_variants (normalize_item_name nm)).foldl
        (fun d v => alSet d v ((alGet d v).getD [] ++ [nm])) d)
    []

/-- `map_report_item_to_source_name` (lines 829-860). -/
def map_report_item_to_source_name (item : String) (source_names : List String)
    (source_norm_to_names : List (String × List String)) : Option String :=
  if item = "" then none
  else if item ∈ source_names then some item
  else
    let norm := normalize_item_name item
    if norm = "" then none
    else
      let candidates := (item_norm_variants norm).foldl
        (fun acc v => acc ++ ((alGet source_norm_to_names v).getD [])) []
      match List.insertionSort GDF.pickLenRel candidates.dedup with
      | best :: _ => some best
      | [] =>
        let bestm := source_names.foldl
          (fun (st : Option String × ℚ) src =>
            let score := jaccard_bigrams norm (normalize_item_name src)
            if score > st.2 then (some src, score) else st)
          (none, 0)
        match bestm.1 with
        | some b => if b ≠ "" ∧ bestm.2 ≥ 0.55 then some b else none
        | none => none

/-- One report file of the day, with the item names its `定投计划逐项建议`
table yields (`list(parse_items(text)[1].keys())`). -/
structure ReportFile where
  file_name : String
  raw_model : String
  report_items : List String
deriving DecidableEq

structure ItemValidationIssue where
  file_name : String
  raw_model : String
  extra_items : List String
  missing_items : List String
  mapped_name_mismatches : List (String × String)
deriving DecidableEq

/-- Order of `sorted(mapped_name_mismatches, key=lambda x: (x[1], x[0]))`. -/
def mmRel (a b : String × String) : Prop :=
  a.2.data < b.2.data ∨ (a.2.data = b.2.data ∧ a.1.data ≤ b.1.data)

instance : DecidableRel mmRel := fun a b => inferInstanceAs (Decidable (_ ∨ _))

/-- State of the per-item loop of
`validate_report_items_against_strategy` (lines 894-930):
(mapped mismatches, matched source names, extra items). -/
def validateStep (source_names : List String) (snn : List (String × List String))
    (st : List (String × String) × List String × List String) (item : String) :
    List (String × String) × List String × List String :=
  if normalize_item_name item = "" then st
  else if item ∈ source_names then
    (st.1, if item ∈ st.2.1 then st.2.1 else st.2.1 ++ [item], st.2.2)
  else
    let norm := normalize_item_name item
    let candidates := (item_norm_variants norm).foldl
      (fun acc v => acc ++ ((alGet snn v).getD [])) []
    match List.insertionSort GDF.pickLenRel candidates.dedup with
    | best :: _ =>
      (st.1 ++ [(item, best)],
       if best ∈ st.2.1 then st.2.1 else st.2.1 ++ [best], st.2.2)
    | [] =>
      let bestm := source_names.foldl
        (fun (acc : Option String × ℚ) src =>
          let score := jaccard_bigrams norm (normalize_item_name src)
          if score > acc.2 then (some src, score) else acc)
        (none, 0)
      match bestm.1 with
      | some b =>
        if b ≠ "" ∧ bestm.2 ≥ 0.55 then
          (st.1 ++ [(item, b)], if b ∈ st.2.1 then st.2.1 else st.2.1 ++ [b], st.2.2)
        else (st.1, st.2.1, st.2.2 ++ [item])
      | none => (st.1, st.2.1, st.2.2 ++ [item])

/-- The authoritative names a file fails to cover:
`[nm for nm in source_names if nm not in matched_source and nm not in
report_items_set]`. -/
def missingFor (source_names : List String) (snn : List (String × List String))
    (f : ReportFile) : List String :=
  let st := f.report_items.foldl (validateStep source_names snn) ([], [], [])
  source_names.filter (fun nm => nm ∉ st.2.1 ∧ nm ∉ f.report_items)

def validateFile (source_names : List String) (snn : List (String × List String))
    (f : ReportFile) : ItemValidationIssue :=
  let st := f.report_items.foldl (validateStep source_names snn) ([], [], [])
  let missing_items := source_names.filter (fun nm => nm ∉ st.2.1 ∧ nm ∉ f.report_items)
  { file_name := f.file_name
    raw_model := f.raw_model
    extra_items := pySorted st.2.2
    missing_items := missing_items
    mapped_name_mismatches := List.insertionSort mmRel st.1 }

/-- `validate_report_items_against_strategy` (lines 870-945). The two I/O
failure modes of `load_strategy_investment_plan_items` (file absent;
unparsable or empty plan) are the `none` / `some []` inputs. -/
def validate_report_items_against_strategy (date_str : String)
    (strategy : Option (List PlanItem)) (files : List ReportFile) :
    Bool × List ItemValidationIssue × String :=
  match strategy with
  | none => (false, [], "缺少数据源：报告/" ++ date_str ++ "/投资策略.json")
  | some plan_items =>
    if plan_items.isEmpty then
      (false, [], "数据源无法解析或 investment_plan 为空：报告/" ++ date_str ++ "/投资策略.json")
    else
      let source_names := (plan_items.map (fun x => x.fund_name)).filter (fun nm => nm != "")
      let snn := buildNormToNames source_names
      let results := files.map (validateFile source_names snn)
      let issues := results.filter
        (fun it => !it.extra_items.isEmpty || !it.missing_items.isEmpty ||
          !it.mapped_name_mismatches.isEmpty)
      let any_fatal := issues.any (fun it => !it.missing_items.isEmpty)
      (!any_fatal, issues,
       "数据源：报告/" ++ date_str ++ "/投资策略.json（investment_plan=" ++
         toString source_names.length ++ "）")

/-- Where `main` (lines 1430-1501) ends up after the validation gate:
either an early `return` with an exit code (before any output is
generated or written) or proceeding to report generation. -/
inductive GateOutcome where
  | earlyExit (code : Nat)
  | proceed
deriving DecidableEq

/-- The validation gate of `main` (lines 1460-1499). -/
def mainValidationGate (date_str : String) (strategy : Option (List PlanItem))
    (files : List ReportFile) (force validate_only : Bool) : GateOutcome :=
  let v := validate_report_items_against_strategy date_str strategy files
  let issues := v.2.1
  let fatal := issues.filter (fun it => !it.missing_items.isEmpty)
  let warn := issues.filter (fun it =>
    it.missing_items.isEmpty &&
      (!it.extra_items.isEmpty || !it.mapped_name_mismatches.isEmpty))
  if !fatal.isEmpty then
    if validate_only then .earlyExit 2
    else if !force then .earlyExit 2
    else .proceed
  else if !warn.isEmpty then
    if validate_only then .earlyExit 0 else .proceed
  else if validate_only then .earlyExit 0 else .proceed


/-- `MODEL_PREFIX_ORDER` (`scripts/generate_daily_summary.py` lines 17-27). -/
def MODEL_PREFIX_ORDER : List String :=
  ["deepseek", "gemini", "gpt", "grok", "glm", "kimi", "minimax", "traeai", "qwen"]

/-- `model_sort_key` (lines 36-42). The stripped name is a component of
the key in both branches, so the key is injective on the canonical model
names (which `canonicalize_model` has already stripped). -/
def model_sort_key (model : String) : Lex (ℕ × Lex (ℕ × List Char)) :=
  let s := pyStrip model
  let low := pyLower s
  match MODEL_PREFIX_ORDER.findIdx? (fun p => p.data.isPrefixOf low.data) with
  | some i => toLex (0, toLex (i, s.data))
  | none => toLex (1, toLex (MODEL_PREFIX_ORDER.length, s.data))

def modelRel (a b : String) : Prop := model_sort_key a ≤ model_sort_key b

instance : DecidableRel modelRel := fun a b => inferInstanceAs (Decidable (_ ≤ _))

/-- `re.match(r"[\u4e00-\u9fff]{2,4}", s)`: the leading CJK run capped at
four characters, defined when at least two long. -/
def cjkPrefix24 (s : String) : Option (List Char) :=
  let run := (s.data.takeWhile GDF.isCJK).take 4
  if run.length ≥ 2 then some run else none

/-- `item_norm_similar` (lines 762-781). -/
def item_norm_similar (a b : String) : Bool :=
  if a = "" ∨ b = "" then false
  else
    let conflict :=
      match cjkPrefix24 a, cjkPrefix24 b with
      | some pa, some pb => pa != pb
      | _, _ => false
    if conflict then false
    else if a = b then true
    else if (hasSub a b ∨ hasSub b a) ∧ min a.data.length b.data.length ≥ 6 then true
    else
      let ta := (item_tokens a).dedup
      let tb := (item_tokens b).dedup
      let inter := (ta.filter (fun t => t ∈ tb)).length
      if inter < 10 then false
      else
        let union := (ta ++ tb.filter (fun t => t ∉ ta)).length
        if union = 0 then false
        else decide ((inter : ℚ) / union ≥ 0.60)

/-- `TopChangeEntry` (lines 149-160). -/
structure TopChangeEntry where
  item : String
  item_norm : String
  direction_raw : Option String
  direction_stat : Option String
  from_pct : Option ℚ
  to_pct : Option ℚ
  reason : String
  raw_model : String
  canonical_model : String
deriving DecidableEq

/-- `ItemEntry` (lines 130-136). -/
structure ItemEntry where
  name : String
  name_norm : String
  candidate : GDF.CellCandidate
  canonical_model : String
deriving DecidableEq

/-- `ModelParsed` (lines 137-148) at the parse boundary: the pure outputs
of `parse_categories` / `parse_items` / `parse_top_changes` /
`parse_themes` for one report file (`items` in dict insertion order),
before the strategy filtering of `main` lines 1509-1529, which
`buildDailySummary` applies itself. -/
structure ModelParsed where
  raw_model : String
  canonical_model : String
  cat_order : List String
  cats : List (String × GDF.CellCandidate)
  item_order : List String
  items : List (String × GDF.CellCandidate)
  top_changes : List TopChangeEntry
  themes : List GDF.ThemeEntry
  no_new : Bool
deriving DecidableEq

/-- The per-file item filtering of `main` (lines 1509-1524): map every
parsed item name to an authoritative name, drop the unmapped, merge
collisions with `select_best_candidate` (never `None` on a two-element
list, the `or filtered[mapped]` fallback kept nonetheless). -/
def filterItems (source_names : List String) (snn : List (String × List String))
    (items : List (String × GDF.CellCandidate)) : List (String × GDF.CellCandidate) :=
  items.foldl
    (fun filtered kv =>
      match map_report_item_to_source_name kv.1 source_names snn with
      | none => filtered
      | some mapped =>
        match alGet filtered mapped with
        | some prev => alSet filtered mapped ((select_best_candidate [prev, kv.2]).getD prev)
        | none => alSet filtered mapped kv.2)
    []

/-- Lines 1509-1529: the effective `(items, item_order)` of one parsed
file; when a strategy exists,
`item_order = [nm for nm in source_names if nm in items]`. -/
def effItems (source_names : List String) (snn : List (String × List String))
    (pm : ModelParsed) : List (String × GDF.CellCandidate) × List String :=
  if source_names.isEmpty then (pm.items, pm.item_order)
  else
    let filtered := filterItems source_names snn pm.items
    (filtered, source_names.filter (fun nm => (alGet filtered nm).isSome))

/-- Extension step of the `item_seen_order` dict (lines 1552-1553). -/
def seenFold (m : List (String × Nat)) (ks : List String) : List (String × Nat) :=
  ks.foldl (fun m k => if (alGet m k).isSome then m else m ++ [(k, m.length)]) m

/-- `ItemGroup` (lines 1566-1571). -/
structure ItemGroup where
  names : List String
  norms : List String
  entries_by_col : List (String × List ItemEntry)
  order_key : Nat
deriving DecidableEq

/-- One step of the greedy item grouping (lines 1583-1606): join the
first group holding a similar norm, else open a new group at the end. -/
def placeItem (iso : List (String × Nat)) (ie : ItemEntry) :
    List ItemGroup → List ItemGroup
  | [] => [⟨[ie.name], [ie.name_norm], [(ie.canonical_model, [ie])],
    (alGet iso ie.name).getD 999999⟩]
  | g :: gs =>
    if g.norms.any (fun gn => item_norm_similar ie.name_norm gn) then
      { names := g.names ++ [ie.name]
        norms := g.norms ++ [ie.name_norm]
        entries_by_col := alSet g.entries_by_col ie.canonical_model
          ((alGet g.entries_by_col ie.canonical_model).getD [] ++ [ie])
        order_key := min g.order_key ((alGet iso ie.name).getD 999999) } :: gs
    else g :: placeItem iso ie gs

/-- Key of `item_groups.sort(key=lambda g: (g.order_key,
sorted(set(g.names), key=lambda x: (len(x), x))[0]))` (lines 1608-1611). -/
def itemGroupKey (g : ItemGroup) : Lex (ℕ × List Char) :=
  toLex (g.order_key,
    match List.insertionSort GDF.pickLenRel g.names.dedup with
    | n :: _ => n.data
    | [] => [])

def itemGroupRel (a b : ItemGroup) : Prop := itemGroupKey a ≤ itemGroupKey b

instance : DecidableRel itemGroupRel := fun a b => inferInstanceAs (Decidable (_ ≤ _))

/-- One category row (lines 1617-1634); `cat_sort_key` (lines 1560-1563)
is the same key as the final report's, embedded once as `GDF.catRel`. -/
def catRow (parsed : List ModelParsed) (model_cols : List String) (cat : String) :
    Option (List String) := do
  let merged := model_cols.map (fun col =>
    select_best_candidate (parsed.filterMap (fun pm =>
      if pm.canonical_model == col then alGet pm.cats cat else none)))
  let cs ← summarize_consensus merged
  return (cat :: merged.map (fun b => match b with | some c => c.display | none => "—")) ++
    [cs.1, cs.2]

/-- One item-group row (lines 1636-1659); the most frequent name with the
shortest-then-lexicographic tie-break is the final report's
`pick_main_name`. -/
def itemRow (model_cols : List String) (g : ItemGroup) : Option (List String) := do
  let main_name := GDF.pick_main_name g.names
  let merged := model_cols.map (fun col =>
    let cands := ((alGet g.entries_by_col col).getD []).map (fun ie => ie.candidate)
    if cands.isEmpty then none else select_best_candidate cands)
  let cs ← summarize_consensus merged
  return (main_name :: merged.map (fun b => match b with | some c => c.display | none => "—")) ++
    [cs.1, cs.2]

/-- The theme-similarity test of `main` (lines 1679-1692); unlike the
final report's `is_similar_topic` it carries no non-empty guard on the
entry's own normalized topic. -/
def gdsThemeSimilar (te : GDF.ThemeEntry) (g : GDF.ThemeGroup) : Prop :=
  te.topic_norm ∈ g.norms ∨
    (∃ gn ∈ g.norms, gn ≠ "" ∧ (hasSub gn te.topic_norm ∨ hasSub te.topic_norm gn)) ∨
    ((GDF.topic_tokens te.topic_norm).dedup.filter (fun t => t ∈ g.tokens)).length ≥ 2

instance (te : GDF.ThemeEntry) (g : GDF.ThemeGroup) : Decidable (gdsThemeSimilar te g) :=
  inferInstanceAs (Decidable (_ ∨ _))

/-- One step of the greedy theme grouping of `main` (lines 1677-1711). -/
def placeThemeGDS (col : String) (te : GDF.ThemeEntry) :
    List GDF.ThemeGroup → List GDF.ThemeGroup
  | [] => [⟨[te.topic], [te.topic_norm], (GDF.topic_tokens te.topic_norm).dedup, [(col, [te])]⟩]
  | g :: gs =>
    if gdsThemeSimilar te g then
      { names := g.names ++ [te.topic]
        norms := g.norms ++ [te.topic_norm]
        tokens := (g.tokens ++ GDF.topic_tokens te.topic_norm).dedup
        per_model := alSet g.per_model col ((alGet g.per_model col).getD [] ++ [te]) } :: gs
    else g :: placeThemeGDS col te gs

/-- `groups.sort(key=lambda g: -len(g.entries_by_col))` (lines 1716-1719):
proposer count descending; ties keep insertion order (Python's sort and
`List.insertionSort` are both stable). -/
def themeGroupRel (a b : GDF.ThemeGroup) : Prop :=
  b.per_model.length ≤ a.per_model.length

instance : DecidableRel themeGroupRel := fun a b => inferInstanceAs (Decidable (_ ≤ _))

/-- `dist` (lines 1740-1744): no non-empty guards and no tie-break; the
stable sort keeps the first entry among equal distances. -/
def gdsDist (main_norm : String) (e : GDF.ThemeEntry) : ℕ :=
  if e.topic_norm = main_norm then 0
  else if hasSub main_norm e.topic_norm ∨ hasSub e.topic_norm main_norm then 1
  else 2

def gdsDistRel (main_norm : String) (a b : GDF.ThemeEntry) : Prop :=
  gdsDist main_norm a ≤ gdsDist main_norm b

instance (m : String) : DecidableRel (gdsDistRel m) :=
  fun a b => inferInstanceAs (Decidable (_ ≤ _))

/-- One theme row plus its 异同 notes (lines 1721-1775). -/
def themeRowGDS (model_cols : List String) (parsed : List ModelParsed)
    (g : GDF.ThemeGroup) : List String :=
  let main_name := GDF.pick_main_name g.names
  let main_norm := normalize_topic_name main_name
  let distinct := List.insertionSort GDF.pickLenRel g.names.dedup
  let diffs0 : List String :=
    if 1 < distinct.length then ["合并：" ++ String.intercalate " / " distinct] else []
  let proposers := g.per_model.map Prod.fst
  let step := fun (acc : List String × List String) (col : String) =>
    match alGet g.per_model col with
    | none => (acc.1 ++ ["—"], acc.2)
    | some entries =>
      match List.insertionSort (gdsDistRel main_norm) entries with
      | [] => (acc.1 ++ ["—"], acc.2)
      | best :: _ =>
        let others := entries.erase best
        let diffs' :=
          if others.isEmpty then acc.2
          else acc.2 ++ [col ++ " 另提：" ++
            String.intercalate " / " (pySorted (others.map (fun o => o.topic)).dedup)]
        (acc.1 ++ [best.display], diffs')
  let cellsDiffs := model_cols.foldl step ([main_name], diffs0)
  let diffs1 :=
    match proposers with
    | [p] => cellsDiffs.2 ++ ["仅 " ++ p ++ " 提出"]
    | _ => cellsDiffs.2
  let no_new_cols := model_cols.filter (fun col =>
    decide (col ∉ proposers) && parsed.any (fun pm => pm.canonical_model == col && pm.no_new))
  let diffs2 :=
    if no_new_cols.isEmpty then diffs1
    else diffs1 ++ ["其中 " ++ String.intercalate " / " (pySorted no_new_cols) ++ " 明确不新增"]
  cellsDiffs.1 ++ [if diffs2.isEmpty then "—" else String.intercalate "；" diffs2]

/-- `ChangeGroup` (lines 1097-1101). -/
structure ChangeGroup where
  names : List String
  norms : List String
  entries : List TopChangeEntry
deriving DecidableEq

/-- One step of the change grouping (lines 1103-1114). -/
def placeChange (e : TopChangeEntry) : List ChangeGroup → List ChangeGroup
  | [] => [⟨[e.item], [e.item_norm], [e]⟩]
  | g :: gs =>
    if g.norms.any (fun gn => item_norm_similar e.item_norm gn) then
      ⟨g.names ++ [e.item], g.norms ++ [e.item_norm], g.entries ++ [e]⟩ :: gs
    else g :: placeChange e gs

/-- The frequency dict of `reason_snippet` (lines 1143-1155). -/
def reasonFreq (rs : List String) : List (String × Nat) :=
  rs.foldl
    (fun d r =>
      let rr := pyStrip r
      if rr = "" then d else alSet d rr ((alGet d rr).getD 0 + 1))
    []

/-- `reason_snippet` (lines 1143-1155); its sort key
`(-count, len, text)` is the final report's `pickRel`. -/
def reason_snippet (g : ChangeGroup) : String :=
  let reasons := (g.entries.map (fun e => e.reason)).filter (fun r => r != "")
  if reasons.isEmpty then ""
  else
    String.intercalate " / "
      (((List.insertionSort GDF.pickRel (reasonFreq reasons)).take 2).map Prod.fst)

/-- The per-group statistics dict of `summarize_top_changes_paragraph`
(lines 1116-1168). The `avg_delta` entry is computed by the source but
never read afterwards; it is not carried. -/
structure CGStat where
  name : String
  mentioned_n : Nat
  cInc : Nat
  cDec : Nat
  cFlat : Nat
  cUnk : Nat
  reasons : String
deriving DecidableEq

def statsOf (g : ChangeGroup) : CGStat :=
  { name := GDF.pick_main_name g.names
    mentioned_n := ((g.entries.map (fun e => e.canonical_model)).dedup).length
    cInc := g.entries.countP (fun e => e.direction_stat == some "增")
    cDec := g.entries.countP (fun e => e.direction_stat == some "减")
    cFlat := g.entries.countP (fun e => e.direction_stat == some "不变")
    cUnk := g.entries.countP (fun e =>
      !(e.direction_stat == some "增" || e.direction_stat == some "减" ||
        e.direction_stat == some "不变"))
    reasons := reason_snippet g }

/-- Key order of `sorted(group_stats, key=lambda x:
(-x["dir_counts"]["增"], -x["mentioned_n"], x["name"]))` (line 1171). -/
def incRel (a b : CGStat) : Prop :=
  b.cInc < a.cInc ∨ (a.cInc = b.cInc ∧ (b.mentioned_n < a.mentioned_n ∨
    (a.mentioned_n = b.mentioned_n ∧ a.name.data ≤ b.name.data)))

instance : DecidableRel incRel := fun a b => inferInstanceAs (Decidable (_ ∨ _))

/-- The analogous key with `减` (line 1172). -/
def decRel (a b : CGStat) : Prop :=
  b.cDec < a.cDec ∨ (a.cDec = b.cDec ∧ (b.mentioned_n < a.mentioned_n ∨
    (a.mentioned_n = b.mentioned_n ∧ a.name.data ≤ b.name.data)))

instance : DecidableRel decRel := fun a b => inferInstanceAs (Decidable (_ ∨ _))

/-- The mixed-group key `(-(inc+dec), -mentioned_n, name)` (line 1174). -/
def mixedRel (a b : CGStat) : Prop :=
  b.cInc + b.cDec < a.cInc + a.cDec ∨ (a.cInc + a.cDec = b.cInc + b.cDec ∧
    (b.mentioned_n < a.mentioned_n ∨
      (a.mentioned_n = b.mentioned_n ∧ a.name.data ≤ b.name.data)))

instance : DecidableRel mixedRel := fun a b => inferInstanceAs (Decidable (_ ∨ _))

/-- Python `s.rstrip()`. -/
def pyRStrip (s : String) : String := ⟨(s.data.reverse.dropWhile isPySpace).reverse⟩

/-- `re.sub(r"\s+", " ", ·)`: collapse every whitespace run to one
space. -/
def collapseWsGo : Bool → List Char → List Char
  | _, [] => []
  | inSp, c :: rest =>
    if isPySpace c then
      if inSp then collapseWsGo true rest else ' ' :: collapseWsGo true rest
    else c :: collapseWsGo false rest

/-- `fmt_reason` (lines 1185-1193): strip, newline to space, collapse
whitespace runs, cut at 40 characters with a right strip. -/
def fmt_reason (s : String) : String :=
  let t := pyStrip s
  if t = "" then ""
  else
    let t1 := pyReplace t "\n" " "
    let t2 : String := ⟨collapseWsGo false t1.data⟩
    if t2.data.length > 40 then pyRStrip ⟨t2.data.take 40⟩ else t2

/-- `summarize_top_changes_paragraph` (lines 1088-1233), at the call
site's `max_chars=1000`. -/
def summarize_top_changes_paragraph (models : List ModelParsed) : String :=
  let all_entries := models.foldl (fun acc m => acc ++ m.top_changes) []
  let model_count := ((models.map (fun m => m.canonical_model)).dedup).length
  if all_entries.isEmpty || model_count == 0 then
    "当日各报告未提供可解析的“定投增减要点”，因此无法基于该部分做横向综述。"
  else
    let group_stats := (all_entries.foldl (fun gs e => placeChange e gs) []).map statsOf
    let incSorted := List.insertionSort incRel group_stats
    let decSorted := List.insertionSort decRel group_stats
    let mixedSorted := List.insertionSort mixedRel
      (group_stats.filter (fun x => x.cInc != 0 && x.cDec != 0))
    let inc_top := (incSorted.filter (fun x => x.cInc != 0)).take 3
    let dec_top := (decSorted.filter (fun x => x.cDec != 0)).take 3
    let mixed_top := mixedSorted.take 2
    let parts0 := ["综合当日" ++ toString model_count ++
      "份报告的“定投增减要点”，可以概括为："]
    let parts1 :=
      if inc_top.isEmpty then parts0
      else
        let names := String.intercalate "、" (inc_top.map (fun x => x.name))
        let rs := (inc_top.map (fun x => fmt_reason x.reasons)).filter (fun r => r != "")
        if rs.isEmpty then
          parts0 ++ ["多份报告倾向把定投多放在" ++ names ++ "。"]
        else
          parts0 ++ ["多份报告倾向把定投多放在" ++ names ++
            "，常见理由包括：" ++ String.intercalate "；" rs ++ "。"]
    let parts2 :=
      if dec_top.isEmpty then parts1
      else
        let names := String.intercalate "、" (dec_top.map (fun x => x.name))
        let rs := (dec_top.map (fun x => fmt_reason x.reasons)).filter (fun r => r != "")
        if rs.isEmpty then
          parts1 ++ ["同时，多份报告建议适当收缩" ++ names ++ "。"]
        else
          parts1 ++ ["同时，多份报告建议适当收缩" ++ names ++
            "，常见理由包括：" ++ String.intercalate "；" rs ++ "。"]
    let parts3 :=
      if mixed_top.isEmpty then parts2
      else
        let seg := mixed_top.map (fun x =>
          let r := fmt_reason x.reasons
          if r = "" then
            x.name ++ "分歧较大（" ++ toString x.cInc ++ "份建议加一点、" ++
              toString x.cDec ++ "份建议减一点）"
          else
            x.name ++ "分歧较大（" ++ toString x.cInc ++ "份建议加一点、" ++
              toString x.cDec ++ "份建议减一点），原因多提到：" ++ r)
        parts2 ++ ["在分歧方面，" ++ String.intercalate "；" seg ++ "。"]
    let paragraph := pyStrip (pyReplace (String.join parts3) "\n" "")
    if paragraph.data.length > 1000 then pyRStrip ⟨paragraph.data.take 1000⟩ else paragraph

/-- The report-generation tail of `main` (lines 1503-1800) as a function
of the report date, the authoritative source names, the parsed files in
the order `input_dir.iterdir()` enumerated them (line 1440 — `main` never
sorts that order), and the iteration order Python's `set` gave `all_cats`.
The `cat_seen_order` dict (lines 1544, 1550-1551) is built by the source
but never read and is not carried. A `KeyError` escaping
`summarize_consensus` is `none`. -/
def buildDailySummary (date_str : String) (source_names : List String)
    (parsed : List ModelParsed) (catIter : List String) : Option String := do
  let snn := buildNormToNames source_names
  let pms := parsed.map (fun pm =>
    let ei := effItems source_names snn pm
    { pm with items := ei.1, item_order := ei.2 })
  let model_cols := List.insertionSort modelRel ((pms.map (fun pm => pm.canonical_model)).dedup)
  let item_seen0 := source_names.enum.foldl (fun m p => alSet m p.2 p.1) []
  let item_seen := pms.foldl (fun m pm => seenFold m pm.item_order) item_seen0
  let cat_list := List.insertionSort GDF.catRel catIter
  let item_entries := pms.foldl
    (fun acc pm => acc ++ pm.items.map (fun kv =>
      (⟨kv.1, normalize_item_name kv.1, kv.2, pm.canonical_model⟩ : ItemEntry))) []
  let item_groups := List.insertionSort itemGroupRel
    (item_entries.foldl (fun gs ie => placeItem item_seen ie gs) [])
  let cat_rows ← cat_list.mapM (catRow pms model_cols)
  let cat_cons := cat_rows.filter (fun r => decide (GDF.isConsensusRow r))
  let item_rows ← item_groups.mapM (itemRow model_cols)
  let item_cons := item_rows.filter (fun r => decide (GDF.isConsensusRow r))
  let theme_entries := pms.foldl
    (fun acc pm => acc ++ pm.themes.map (fun te => (pm.canonical_model, te))) []
  let groups := List.insertionSort themeGroupRel
    (theme_entries.foldl (fun gs p => placeThemeGDS p.1 p.2 gs) [])
  let theme_rows := groups.map (themeRowGDS model_cols pms)
  return String.intercalate "\n"
    ["# 投资总结（" ++ date_str ++ "）\n",
     "## 0. 定投增减要点综述（1000字以内）",
     summarize_top_changes_paragraph pms,
     "",
     "## 1. 大板块比例调整建议（按大类横向对比）",
     GDF.render_table (("大板块" :: model_cols) ++ ["一致性", "分歧摘要"]) cat_rows,
     "\n### 一致建议",
     GDF.render_table (("大板块" :: model_cols) ++ ["一致性", "分歧摘要"]) cat_cons,
     "\n## 2. 定投计划逐项建议（按标的横向对比）",
     GDF.render_table (("标的" :: model_cols) ++ ["一致性", "分歧摘要"]) item_rows,
     "\n### 一致建议",
     GDF.render_table (("标的" :: model_cols) ++ ["一致性", "分歧摘要"]) item_cons,
     "\n## 3. 新的定投方向建议（按主题横向对比）",
     GDF.render_table (("主题/方向" :: model_cols) ++ ["异同"]) theme_rows]

end GDS

namespace GWS

/-- `calc_main_direction` (`scripts/generate_weekly_summary.py` lines
236-259). -/
def calc_main_direction (dir_stats : List (Option String))
    (label_inc label_dec : String) : Option String :=
  let cInc := dir_stats.countP (fun d => d == some "增")
  let cDec := dir_stats.countP (fun d => d == some "减")
  let cFlat := dir_stats.countP (fun d => d == some "不变")
  let total := cInc + cDec + cFlat
  if total = 0 then none
  else
    let max_v := max cInc (max cDec cFlat)
    let winners := (([("增", cInc), ("减", cDec), ("不变", cFlat)] :
        List (String × Nat)).filter (fun kv => kv.2 == max_v)).map Prod.fst
    match winners with
    | [w] => if w = "增" then some label_inc else if w = "减" then some label_dec else some "不变"
    | _ => some "无明显偏向"

/-- The days with a usable vote counted by `signal_score_from_main_dirs`. -/
def usableDays (main_dirs : List (Option String)) (label_inc label_dec : String) : Nat :=
  main_dirs.countP (fun x => x == some label_inc) +
    main_dirs.countP (fun x => x == some label_dec) +
    main_dirs.countP (fun x => x == some "不变")

/-- `signal_score_from_main_dirs` (lines 274-281). -/
def signal_score_from_main_dirs (main_dirs : List (Option String))
    (label_inc label_dec : String) : Option ℚ :=
  let inc_days := main_dirs.countP (fun x => x == some label_inc)
  let dec_days := main_dirs.countP (fun x => x == some label_dec)
  let flat_days := main_dirs.countP (fun x => x == some "不变")
  let total := inc_days + dec_days + flat_days
  if total ≤ 0 then none
  else some (((inc_days : ℚ) - (dec_days : ℚ)) / (total : ℚ))

/-- `signal_action` (lines 284-291). -/
def signal_action (score : Option ℚ) (is_category : Bool) : String :=
  match score with
  | none => "—"
  | some s =>
    if s ≥ 0.20 then (if is_category then "增配" else "增持")
    else if s ≤ -0.20 then (if is_category then "减配" else "减持")
    else "维持"

/-- The numeric value `abs(score) * 100` that `signal_strength`
(lines 294-297) renders as `f"{·:.2f}%"`. -/
def signal_strength_value (score : Option ℚ) : Option ℚ :=
  score.map (fun s => |s| * 100)

/-- `signal_trend` (lines 300-313). -/
def signal_trend (early_score late_score : Option ℚ) (is_category : Bool) : String :=
  match early_score, late_score with
  | some e, some l =>
    let early_action := signal_action (some e) is_category
    let late_action := signal_action (some l) is_category
    if early_action ≠ late_action ∧ early_action ≠ "维持" ∧ late_action ≠ "维持" then
      "反转：" ++ early_action ++ "→" ++ late_action
    else if |l| - |e| ≥ 0.20 then "变强"
    else if |e| - |l| ≥ 0.20 then "变弱"
    else "稳定"
  | _, _ => "—"

/-- `k_half = max(1, n_days // 2) if n_days else 0` (line 587). -/
def k_half (n_days : Nat) : Nat := if n_days = 0 then 0 else max 1 (n_days / 2)

/-- `main_dirs[:k_half]` (line 604). -/
def weeklyEarlyDirs (main_dirs : List (Option String)) : List (Option String) :=
  main_dirs.take (k_half main_dirs.length)

/-- `main_dirs[-k_half:]` (line 605). -/
def weeklyLateDirs (main_dirs : List (Option String)) : List (Option String) :=
  main_dirs.drop (main_dirs.length - k_half main_dirs.length)

/-- The trend cell computed by `compute_weekly` (lines 586-608) from one
entity's per-day winning directions. -/
def weeklyTrend (main_dirs : List (Option String)) (label_inc label_dec : String)
    (is_category : Bool) : String :=
  if k_half main_dirs.length = 0 then signal_trend none none is_category
  else
    signal_trend
      (signal_score_from_main_dirs (weeklyEarlyDirs main_dirs) label_inc label_dec)
      (signal_score_from_main_dirs (weeklyLateDirs main_dirs) label_inc label_dec)
      is_category

/-- Modelled from the spec: the claimed half-split in which the late half
absorbs the extra day of an odd window (`early = dirs[:n//2]`,
`late = dirs[n//2:]`), for comparison with the implemented split. -/
def weeklySpecEarlyDirs (main_dirs : List (Option String)) : List (Option String) :=
  main_dirs.take (main_dirs.length / 2)

def weeklySpecLateDirs (main_dirs : List (Option String)) : List (Option String) :=
  main_dirs.drop (main_dirs.length / 2)

def weeklyTrendSpecSplit (main_dirs : List (Option String))
    (label_inc label_dec : String) (is_category : Bool) : String :=
  signal_trend
    (signal_score_from_main_dirs (weeklySpecEarlyDirs main_dirs) label_inc label_dec)
    (signal_score_from_main_dirs (weeklySpecLateDirs main_dirs) label_inc label_dec)
    is_category

end GWS

namespace Agg

open PyStr

/-- The character-level facts every normalizer output satisfies: fixed
under the NFKC fold and under lower-casing, and not whitespace. -/
def abcChar (c : Char) : Prop :=
  nfkcChar c = c ∧ pyLowerChar c = c ∧ isPySpace c = false

/-- Output characters of the normalizers additionally carry no bracket or
parenthesis characters. -/
def outChar (c : Char) : Prop :=
  abcChar c ∧ c ∉ bracketChars ∧ c ≠ '(' ∧ c ≠ ')'

instance : DecidablePred abcChar :=
  fun c => inferInstanceAs (Decidable (nfkcChar c = c ∧ pyLowerChar c = c ∧ isPySpace c = false))

instance : DecidablePred outChar :=
  fun c => inferInstanceAs (Decidable (abcChar c ∧ c ∉ bracketChars ∧ c ≠ '(' ∧ c ≠ ')'))

end Agg

namespace GDF

open PyStr Util

/-- Well-formed direction stats: what `direction_to_stat` can produce. -/
def wfStat (c : CellCandidate) : Prop :=
  c.direction_stat = none ∨ c.direction_stat = some "增" ∨
    c.direction_stat = some "减" ∨ c.direction_stat = some "不变"

instance : DecidablePred wfStat :=
  fun c => inferInstanceAs (Decidable (_ ∨ _ ∨ _ ∨ _))

def wfCands (cs : List (Option CellCandidate)) : Prop :=
  ∀ oc ∈ cs, ∀ c ∈ oc, wfStat c

instance decWfOpt (oc : Option CellCandidate) : Decidable (∀ c ∈ oc, wfStat c) :=
  match oc with
  | none => isTrue (by intro c hc; simp [Option.mem_def] at hc)
  | some a =>
    decidable_of_iff (wfStat a)
      ⟨fun h c hc => by rw [Option.mem_def, Option.some.injEq] at hc; rwa [← hc],
       fun h => h a rfl⟩

instance (cs : List (Option CellCandidate)) : Decidable (wfCands cs) :=
  inferInstanceAs (Decidable (∀ oc ∈ cs, ∀ c ∈ oc, wfStat c))

/-- The per-class vote counts, plurality vote and plurality directions of
`summarize_consensus` as standalone quantities. -/
def votesFor (cs : List (Option CellCandidate)) (d : String) : Nat :=
  (usableOf cs).countP (fun c => c.direction_stat == some d)

def maxVote (cs : List (Option CellCandidate)) : Nat :=
  max (votesFor cs "增") (max (votesFor cs "减") (votesFor cs "不变"))

def topDirs (cs : List (Option CellCandidate)) : List String :=
  (([("增", votesFor cs "增"), ("减", votesFor cs "减"), ("不变", votesFor cs "不变")] :
      List (String × Nat)).filter (fun kv => kv.2 == maxVote cs)).map Prod.fst

/-- The vote-count clause `"{c增}增/{c减}减/{c不变}不变"` of the summary. -/
def countsRendering (cs : List (Option CellCandidate)) : String :=
  toString (votesFor cs "增") ++ "增/" ++ toString (votesFor cs "减") ++ "减/" ++
    toString (votesFor cs "不变") ++ "不变"

/-- The range clause of the summary. -/
def rangeRendering (cs : List (Option CellCandidate)) : String :=
  match (usableOf cs).filterMap (fun c => c.pct) with
  | [] => "范围 —–—"
  | p :: rest => "范围 " ++ format_pct (rest.foldl min p) ++ "–" ++ format_pct (rest.foldl max p)

/-- Claim C9 as stated: with at least one usable candidate the rendered
summary always states the per-class vote counts and the magnitude range,
and carries the `数据不足；` prefix exactly when there is a single usable
source. -/
def claimC9Pred : Prop :=
  ∀ cs : List (Option CellCandidate), wfCands cs → usableOf cs ≠ [] →
    (countsRendering cs).data <:+: ((summarize_consensus cs).2).data ∧
    (rangeRendering cs).data <:+: ((summarize_consensus cs).2).data ∧
    ("数据不足；".data <+: ((summarize_consensus cs).2).data ↔ (usableOf cs).length = 1)

/-- `non_missing` / the preferred pool of the candidate selectors. -/
def nonMissingOf (cands : List CellCandidate) : List CellCandidate :=
  cands.filter (fun c => pyStrip c.display != "—")

def poolOf (cands : List CellCandidate) : List CellCandidate :=
  if (nonMissingOf cands).isEmpty then cands else nonMissingOf cands

/-- Claim C8 as stated, for a given selection function: defined iff the
input is non-empty; the result is one of the candidates, non-missing
whenever some candidate is non-missing, of maximal display length within
the preferred pool, and of reverse-lexicographically maximal source
identifier among the length ties of the pool. -/
def selectSpec (select : List CellCandidate → Option CellCandidate) : Prop :=
  (∀ cands, select cands = none ↔ cands = []) ∧
  ∀ cands, cands ≠ [] → ∃ c, select cands = some c ∧ c ∈ cands ∧ c ∈ poolOf cands ∧
    ((∃ c' ∈ cands, pyStrip c'.display ≠ "—") → pyStrip c.display ≠ "—") ∧
    (∀ c' ∈ poolOf cands, c'.display.data.length ≤ c.display.data.length) ∧
    (∀ c' ∈ poolOf cands, c'.display.data.length = c.display.data.length →
      strLe c'.raw_model c.raw_model)

end GDF

namespace PyStr

theorem map_id_of_fixed {f : Char → Char} :
    ∀ {l : List Char}, (∀ c ∈ l, f c = c) → l.map f = l := by
  intro l h
  induction l with
  | nil => rfl
  | cons a as ih =>
    simp only [List.map_cons]
    rw [h a (List.mem_cons_self a as), ih (fun c hc => h c (List.mem_cons_of_mem a hc))]

theorem nfkcTable_image_fixed : ∀ p ∈ nfkcTable, nfkcChar p.2 = p.2 := by decide

theorem nfkcChar_idem (c : Char) : nfkcChar (nfkcChar c) = nfkcChar c := by
  rcases h : nfkcTable.find? (fun p => p.1 = c) with _ | p
  · have h1 : nfkcChar c = c := by simp [nfkcChar, h]
    rw [h1, h1]
  · have h1 : nfkcChar c = p.2 := by simp [nfkcChar, h]
    rw [h1]
    exact nfkcTable_image_fixed p (List.mem_of_find?_eq_some h)

theorem lowerTable_image_fixed : ∀ p ∈ lowerTable, pyLowerChar p.2 = p.2 := by decide

theorem pyLowerChar_idem (c : Char) : pyLowerChar (pyLowerChar c) = pyLowerChar c := by
  rcases h : lowerTable.find? (fun p => p.1 = c) with _ | p
  · have h1 : pyLowerChar c = c := by simp [pyLowerChar, h]
    rw [h1, h1]
  · have h1 : pyLowerChar c = p.2 := by simp [pyLowerChar, h]
    rw [h1]
    exact lowerTable_image_fixed p (List.mem_of_find?_eq_some h)

theorem lowerTable_image_nfkc_fixed : ∀ p ∈ lowerTable, nfkcChar p.2 = p.2 := by decide

theorem nfkcChar_fixed_of_lower {c : Char} (h : nfkcChar c = c) :
    nfkcChar (pyLowerChar c) = pyLowerChar c := by
  rcases hf : lowerTable.find? (fun p => p.1 = c) with _ | p
  · have h1 : pyLowerChar c = c := by simp [pyLowerChar, hf]
    rw [h1]; exact h
  · have h1 : pyLowerChar c = p.2 := by simp [pyLowerChar, hf]
    rw [h1]
    exact lowerTable_image_nfkc_fixed p (List.mem_of_find?_eq_some hf)

theorem dropWhile_eq_self_of_none {p : Char → Bool} :
    ∀ {l : List Char}, (∀ c ∈ l, p c = false) → l.dropWhile p = l := by
  intro l h
  cases l with
  | nil => rfl
  | cons a as =>
    rw [List.dropWhile_cons, h a (List.mem_cons_self a as)]
    simp

theorem stripList_eq_self {l : List Char} (h : ∀ c ∈ l, isPySpace c = false) :
    stripList l = l := by
  unfold stripList
  rw [dropWhile_eq_self_of_none h]
  rw [dropWhile_eq_self_of_none (fun c hc => h c (List.mem_reverse.mp hc))]
  exact List.reverse_reverse l

theorem stripList_subset {l : List Char} : ∀ c ∈ stripList l, c ∈ l := by
  intro c hc
  unfold stripList at hc
  rw [List.mem_reverse] at hc
  have h1 := (List.dropWhile_sublist (l := (l.dropWhile isPySpace).reverse) isPySpace).subset hc
  rw [List.mem_reverse] at h1
  exact (List.dropWhile_sublist isPySpace).subset h1

theorem mem_replGo {p r : List Char} :
    ∀ {l : List Char} {k : Nat} {c : Char}, c ∈ replGo p r k l → c ∈ l ∨ c ∈ r := by
  intro l
  induction l with
  | nil => intro k c hc; rw [replGo] at hc; cases hc
  | cons a as ih =>
    intro k c hc
    match k with
    | Nat.succ k' =>
      rw [replGo] at hc
      rcases ih hc with h | h
      · exact Or.inl (List.mem_cons_of_mem a h)
      · exact Or.inr h
    | 0 =>
      rw [replGo] at hc
      by_cases hp : p.isPrefixOf (a :: as)
      · rw [if_pos hp] at hc
        rcases List.mem_append.mp hc with h | h
        · exact Or.inr h
        · rcases ih h with h2 | h2
          · exact Or.inl (List.mem_cons_of_mem a h2)
          · exact Or.inr h2
      · rw [if_neg hp] at hc
        rcases List.mem_cons.mp hc with h | h
        · exact Or.inl (h ▸ List.mem_cons_self a as)
        · rcases ih h with h2 | h2
          · exact Or.inl (List.mem_cons_of_mem a h2)
          · exact Or.inr h2

theorem noOccur_cons {p : List Char} {a : Char} {as : List Char}
    (h : ¬ p <:+: a :: as) : ¬ p <:+: as := by
  intro hc
  rcases hc with ⟨s, t, e⟩
  exact h ⟨a :: s, t, by rw [← e]; simp⟩

theorem eq_append_of_isPrefixOf :
    ∀ {p l : List Char}, p.isPrefixOf l = true → ∃ t, p ++ t = l := by
  intro p
  induction p with
  | nil => intro l _; exact ⟨l, rfl⟩
  | cons a as ih =>
    intro l h
    cases l with
    | nil => simp [List.isPrefixOf] at h
    | cons b bs =>
      simp only [List.isPrefixOf, Bool.and_eq_true, beq_iff_eq] at h
      rcases ih h.2 with ⟨t, ht⟩
      exact ⟨t, by rw [h.1]; simp [ht]⟩

theorem replGo_of_noOccur {p r : List Char} (hp : p ≠ []) :
    ∀ {l : List Char}, ¬ p <:+: l → replGo p r 0 l = l := by
  intro l
  induction l with
  | nil => intro _; rw [replGo]
  | cons a as ih =>
    intro h
    rw [replGo]
    have hnp : ¬ p.isPrefixOf (a :: as) := by
      intro hc
      rcases eq_append_of_isPrefixOf hc with ⟨t, ht⟩
      exact h ⟨[], t, by simpa using ht⟩
    rw [if_neg hnp, ih (noOccur_cons h)]

theorem singleton_noOccur {a : Char} {l : List Char} (h : a ∉ l) : ¬ [a] <:+: l := by
  intro hc
  rcases hc with ⟨s, t, e⟩
  exact h (by rw [← e]; simp)

theorem replGo_singleton_empty {a : Char} :
    ∀ l : List Char, replGo [a] [] 0 l = l.filter (fun c => !(c = a)) := by
  intro l
  induction l with
  | nil => rw [replGo]; rfl
  | cons b bs ih =>
    rw [replGo]
    by_cases hab : a = b
    · have hpre : [a].isPrefixOf (b :: bs) = true := by
        subst hab; simp [List.isPrefixOf]
      rw [if_pos hpre]
      simp only [List.length_cons, List.length_nil, Nat.add_sub_cancel, List.nil_append]
      rw [ih, List.filter_cons]
      subst hab
      simp
    · have hpre : ¬ ([a].isPrefixOf (b :: bs) = true) := by
        simp [List.isPrefixOf, hab]
      rw [if_neg hpre, ih, List.filter_cons]
      simp [Ne.symm hab]

end PyStr

namespace PyStr

theorem mk_data (s : String) : (⟨s.data⟩ : String) = s := rfl

theorem pyReplace_of_noOccur {s pat rep : String} (hp : pat.data ≠ [])
    (h : ¬ pat.data <:+: s.data) : pyReplace s pat rep = s := by
  unfold pyReplace
  rw [replGo_of_noOccur hp h]

theorem mem_pyReplace {s pat rep : String} {c : Char}
    (hc : c ∈ (pyReplace s pat rep).data) : c ∈ s.data ∨ c ∈ rep.data :=
  mem_replGo hc

theorem removeSpaces_eq_self {s : String} (h : ∀ c ∈ s.data, isPySpace c = false) :
    removeSpaces s = s := by
  unfold removeSpaces
  rw [List.filter_eq_self.mpr (fun c hc => by rw [h c hc]; rfl)]

theorem mem_removeSpaces {s : String} {c : Char} (hc : c ∈ (removeSpaces s).data) :
    c ∈ s.data ∧ isPySpace c = false := by
  unfold removeSpaces at hc
  have h := List.mem_filter.mp hc
  refine ⟨h.1, ?_⟩
  have h2 := h.2
  simp only [Bool.not_eq_true'] at h2
  exact h2

theorem removeChars_eq_self {bad : List Char} {s : String}
    (h : ∀ c ∈ s.data, c ∉ bad) : removeChars bad s = s := by
  unfold removeChars
  rw [List.filter_eq_self.mpr (fun c hc => by
    have := h c hc
    simp [List.contains, List.elem_iff, this])]

theorem mem_removeChars {bad : List Char} {s : String} {c : Char}
    (hc : c ∈ (removeChars bad s).data) : c ∈ s.data ∧ c ∉ bad := by
  unfold removeChars at hc
  have h := List.mem_filter.mp hc
  refine ⟨h.1, ?_⟩
  have h2 := h.2
  simpa [List.contains, List.elem_iff] using h2

theorem rm6go_of_noSix :
    ∀ {l p : List Char}, noSix p.length l = true → p.length ≤ 5 →
      rm6go p l = p ++ l := by
  intro l
  induction l with
  | nil =>
    intro p _ hle
    rw [rm6go, flush6, if_neg (by omega), List.append_nil]
  | cons c cs ih =>
    intro p hsix hle
    rw [noSix] at hsix
    rw [rm6go]
    by_cases hd : isAsciiDigit c
    · rw [if_pos hd] at hsix ⊢
      by_cases hb : p.length + 1 ≥ 6
      · rw [if_pos hb] at hsix; cases hsix
      · rw [if_neg hb] at hsix
        have h1 : (p ++ [c]).length = p.length + 1 := by simp
        have := ih (p := p ++ [c]) (by rw [h1]; exact hsix) (by omega)
        rw [this]
        simp
    · rw [if_neg hd] at hsix ⊢
      have := ih (p := []) hsix (by simp)
      rw [this, flush6, if_neg (by omega)]
      simp

theorem removeSixDigitRuns_eq_self {s : String} (h : noSix 0 s.data = true) :
    removeSixDigitRuns s = s := by
  unfold removeSixDigitRuns
  rw [rm6go_of_noSix (p := []) h (by simp), List.nil_append]

theorem mem_flush6 {pend : List Char} {c : Char} (hc : c ∈ flush6 pend) : c ∈ pend := by
  unfold flush6 at hc
  by_cases h6 : pend.length = 6
  · rw [if_pos h6] at hc; cases hc
  · rwa [if_neg h6] at hc

theorem mem_rm6go :
    ∀ {l pend : List Char} {c : Char}, c ∈ rm6go pend l → c ∈ pend ∨ c ∈ l := by
  intro l
  induction l with
  | nil =>
    intro pend c hc
    rw [rm6go] at hc
    exact Or.inl (mem_flush6 hc)
  | cons a as ih =>
    intro pend c hc
    rw [rm6go] at hc
    by_cases hd : isAsciiDigit a
    · rw [if_pos hd] at hc
      rcases ih hc with h | h
      · rcases List.mem_append.mp h with h2 | h2
        · exact Or.inl h2
        · exact Or.inr (by simpa using Or.inl (List.mem_singleton.mp h2))
      · exact Or.inr (List.mem_cons_of_mem a h)
    · rw [if_neg hd] at hc
      rcases List.mem_append.mp hc with h | h
      · exact Or.inl (mem_flush6 h)
      · rcases List.mem_cons.mp h with h2 | h2
        · exact Or.inr (h2 ▸ List.mem_cons_self a as)
        · rcases ih h2 with h3 | h3
          · cases h3
          · exact Or.inr (List.mem_cons_of_mem a h3)

theorem mem_removeSixDigitRuns {s : String} {c : Char}
    (hc : c ∈ (removeSixDigitRuns s).data) : c ∈ s.data := by
  unfold removeSixDigitRuns at hc
  rcases mem_rm6go hc with h | h
  · cases h
  · exact h

theorem foldl_pyReplace_chars {P : Char → Prop} :
    ∀ (ws : List (String × String)) (t : String),
      (∀ pr ∈ ws, ∀ c ∈ pr.2.data, P c) → (∀ c ∈ t.data, P c) →
      ∀ c ∈ (ws.foldl (fun t pr => pyReplace t pr.1 pr.2) t).data, P c := by
  intro ws
  induction ws with
  | nil => intro t _ ht; exact ht
  | cons pr rest ih =>
    intro t hws ht
    rw [List.foldl_cons]
    refine ih (pyReplace t pr.1 pr.2) (fun q hq => hws q (List.mem_cons_of_mem pr hq)) ?_
    intro c hc
    rcases mem_pyReplace hc with h | h
    · exact ht c h
    · exact hws pr (List.mem_cons_self pr rest) c h

theorem foldl_pyReplace_id :
    ∀ (ws : List (String × String)) (t : String),
      (∀ pr ∈ ws, pr.1.data ≠ [] ∧ ¬ pr.1.data <:+: t.data) →
      ws.foldl (fun t pr => pyReplace t pr.1 pr.2) t = t := by
  intro ws
  induction ws with
  | nil => intro t _; rfl
  | cons pr rest ih =>
    intro t h
    rw [List.foldl_cons,
      pyReplace_of_noOccur (h pr (List.mem_cons_self pr rest)).1
        (h pr (List.mem_cons_self pr rest)).2]
    exact ih t (fun q hq => h q (List.mem_cons_of_mem pr hq))

theorem foldl_topicReplace_chars {P : Char → Prop} :
    ∀ (ws : List String) (t : String), (∀ c ∈ t.data, P c) →
      ∀ c ∈ (ws.foldl (fun t w => pyReplace t w "") t).data, P c := by
  intro ws
  induction ws with
  | nil => intro t ht; exact ht
  | cons w rest ih =>
    intro t ht
    rw [List.foldl_cons]
    refine ih (pyReplace t w "") ?_
    intro c hc
    rcases mem_pyReplace hc with h | h
    · exact ht c h
    · cases h

theorem foldl_topicReplace_id :
    ∀ (ws : List String) (t : String),
      (∀ w ∈ ws, w.data ≠ [] ∧ ¬ w.data <:+: t.data) →
      ws.foldl (fun t w => pyReplace t w "") t = t := by
  intro ws
  induction ws with
  | nil => intro t _; rfl
  | cons w rest ih =>
    intro t h
    rw [List.foldl_cons,
      pyReplace_of_noOccur (h w (List.mem_cons_self w rest)).1
        (h w (List.mem_cons_self w rest)).2]
    exact ih t (fun q hq => h q (List.mem_cons_of_mem w hq))

end PyStr

namespace Agg

open PyStr

theorem pyNFKC_eq_self {s : String} (h : ∀ c ∈ s.data, nfkcChar c = c) :
    pyNFKC s = s := by
  unfold pyNFKC
  rw [map_id_of_fixed h]

theorem pyStrip_eq_self {s : String} (h : ∀ c ∈ s.data, isPySpace c = false) :
    pyStrip s = s := by
  unfold pyStrip
  rw [stripList_eq_self h]

theorem pyLower_eq_self {s : String} (h : ∀ c ∈ s.data, pyLowerChar c = c) :
    pyLower s = s := by
  unfold pyLower
  rw [map_id_of_fixed h]

theorem nfkc_chars (s : String) : ∀ c ∈ (pyNFKC s).data, nfkcChar c = c := by
  intro c hc
  rcases List.mem_map.mp hc with ⟨a, _, rfl⟩
  exact nfkcChar_idem a

theorem lowered_chars (s : String) :
    ∀ c ∈ (pyLower (pyStrip (pyNFKC s))).data, nfkcChar c = c ∧ pyLowerChar c = c := by
  intro c hc
  rcases List.mem_map.mp hc with ⟨a, ha, rfl⟩
  have haN : nfkcChar a = a := nfkc_chars s a (stripList_subset a ha)
  exact ⟨nfkcChar_fixed_of_lower haN, pyLowerChar_idem a⟩

theorem mem_pyReplace_single {s pat : String} {a c : Char} (hpat : pat.data = [a])
    (hc : c ∈ (pyReplace s pat "").data) : c ∈ s.data ∧ c ≠ a := by
  unfold pyReplace at hc
  rw [hpat] at hc
  rw [replGo_singleton_empty (a := a) s.data] at hc
  have h := List.mem_filter.mp hc
  refine ⟨h.1, ?_⟩
  have h2 := h.2
  simp only [Bool.not_eq_true', decide_eq_false_iff_not] at h2
  exact h2

theorem mem_huaan {u : String} {c : Char}
    (hc : c ∈ (huaanRule2 (huaanRule1 u)).data) :
    c ∈ u.data ∨ c ∈ ("华安黄金" : String).data := by
  unfold huaanRule2 huaanRule1 at hc
  split_ifs at hc
  all_goals first
    | exact Or.inr hc
    | exact Or.inl hc

theorem huaan_output_free (u : String) :
    huaanRule2 (huaanRule1 u) ∉ huaanLinked ∧ huaanRule2 (huaanRule1 u) ∉ huaanPlain := by
  unfold huaanRule1
  by_cases h1 : u ∈ huaanLinked
  · rw [if_pos h1]
    unfold huaanRule2
    rw [if_neg (by decide)]
    exact ⟨by decide, by decide⟩
  · rw [if_neg h1]
    unfold huaanRule2
    by_cases h2 : u ∈ huaanPlain
    · rw [if_pos h2]
      exact ⟨by decide, by decide⟩
    · rw [if_neg h2]
      exact ⟨h1, h2⟩

theorem huaan_chars : ∀ c ∈ ("华安黄金" : String).data, outChar c := by decide

theorem parenL_chars : ∀ c ∈ ("(" : String).data, nfkcChar c = c ∧ pyLowerChar c = c := by
  decide

theorem parenR_chars : ∀ c ∈ (")" : String).data, nfkcChar c = c ∧ pyLowerChar c = c := by
  decide

theorem itemReplacement_chars :
    ∀ pr ∈ itemReplacements, ∀ c ∈ pr.2.data, abcChar c := by decide

theorem itemReplacement_pats_ne : ∀ pr ∈ itemReplacements, pr.1.data ≠ [] := by decide

/-- Every character of a `normalize_item_name` output is NFKC-fixed,
lower-case-fixed, not whitespace, and not a bracket or parenthesis. -/
theorem normalize_item_name_chars (x : String) :
    ∀ c ∈ (normalize_item_name x).data, outChar c := by
  simp only [normalize_item_name]
  split_ifs with h1 h2 h3
  · intro c hc; exact absurd hc (List.not_mem_nil c)
  · intro c hc; exact absurd hc (List.not_mem_nil c)
  · intro c hc; exact absurd hc (List.not_mem_nil c)
  · intro c hc
    have hNL2 : ∀ d ∈ (pyReplace (pyReplace (pyLower (pyStrip (pyNFKC x))) "（" "(")
        "）" ")").data, nfkcChar d = d ∧ pyLowerChar d = d := by
      intro d hd
      rcases mem_pyReplace hd with hd2 | hd2
      · rcases mem_pyReplace hd2 with hd3 | hd3
        · exact lowered_chars x d hd3
        · exact parenL_chars d hd3
      · exact parenR_chars d hd2
    have hABC3 : ∀ d ∈ (removeSpaces (pyReplace (pyReplace (pyLower (pyStrip (pyNFKC x)))
        "（" "(") "）" ")")).data, abcChar d := by
      intro d hd
      have h := mem_removeSpaces hd
      exact ⟨(hNL2 d h.1).1, (hNL2 d h.1).2, h.2⟩
    have hABC4 : ∀ d ∈ (removeSixDigitRuns (removeSpaces (pyReplace (pyReplace
        (pyLower (pyStrip (pyNFKC x))) "（" "(") "）" ")"))).data, abcChar d := by
      intro d hd
      exact hABC3 d (mem_removeSixDigitRuns hd)
    have hABC5 : ∀ d ∈ (itemReplacements.foldl (fun t pr => pyReplace t pr.1 pr.2)
        (removeSixDigitRuns (removeSpaces (pyReplace (pyReplace
          (pyLower (pyStrip (pyNFKC x))) "（" "(") "）" ")")))).data, abcChar d :=
      foldl_pyReplace_chars itemReplacements _ itemReplacement_chars hABC4
    rcases mem_huaan hc with hc8 | hc8
    · have hc7 := mem_pyReplace_single (a := ')') rfl hc8
      have hc6 := mem_pyReplace_single (a := '(') rfl hc7.1
      have hc5 := mem_removeChars hc6.1
      exact ⟨hABC5 c hc5.1, hc5.2, hc6.2, hc7.2⟩
    · exact huaan_chars c hc8

theorem normalize_item_name_no_huaan (x : String) :
    normalize_item_name x ∉ huaanLinked ∧ normalize_item_name x ∉ huaanPlain := by
  simp only [normalize_item_name]
  split_ifs with h1 h2 h3
  · exact ⟨by decide, by decide⟩
  · exact ⟨by decide, by decide⟩
  · exact ⟨by decide, by decide⟩
  · exact huaan_output_free _

theorem outChar_ne_fullParenL {c : Char} (h : outChar c) : c ≠ '（' := by
  intro he
  rw [he] at h
  exact absurd h (by decide)

theorem outChar_ne_fullParenR {c : Char} (h : outChar c) : c ≠ '）' := by
  intro he
  rw [he] at h
  exact absurd h (by decide)

/-- Fixpoint: a string with the output-character invariants, outside the
华安黄金 patterns, not a dash run, without six consecutive digits, and
containing none of the stripped substrings, passes `normalize_item_name`
unchanged. -/
theorem normalize_item_name_fix (t : String)
    (hchars : ∀ c ∈ t.data, outChar c)
    (hhua1 : t ∉ huaanLinked) (hhua2 : t ∉ huaanPlain)
    (hdash : isDashRun t = false)
    (hsix : noSix 0 t.data = true)
    (hwords : ∀ pr ∈ itemReplacements, ¬ pr.1.data <:+: t.data) :
    normalize_item_name t = t := by
  by_cases ht : t = ""
  · rw [ht]; rfl
  · have e1 : pyNFKC t = t := pyNFKC_eq_self (fun c hc => (hchars c hc).1.1)
    have e2 : pyStrip t = t := pyStrip_eq_self (fun c hc => (hchars c hc).1.2.2)
    have e3 : pyLower t = t := pyLower_eq_self (fun c hc => (hchars c hc).1.2.1)
    have e4 : pyReplace t "（" "(" = t :=
      pyReplace_of_noOccur (by decide)
        (singleton_noOccur (fun hm => outChar_ne_fullParenL (hchars _ hm) rfl))
    have e5 : pyReplace t "）" ")" = t :=
      pyReplace_of_noOccur (by decide)
        (singleton_noOccur (fun hm => outChar_ne_fullParenR (hchars _ hm) rfl))
    have e6 : removeSpaces t = t := removeSpaces_eq_self (fun c hc => (hchars c hc).1.2.2)
    have e7 : removeSixDigitRuns t = t := removeSixDigitRuns_eq_self hsix
    have e8 : itemReplacements.foldl (fun t pr => pyReplace t pr.1 pr.2) t = t :=
      foldl_pyReplace_id itemReplacements t
        (fun pr hpr => ⟨itemReplacement_pats_ne pr hpr, hwords pr hpr⟩)
    have e9 : removeChars bracketChars t = t :=
      removeChars_eq_self (fun c hc => (hchars c hc).2.1)
    have e10 : pyReplace t "(" "" = t :=
      pyReplace_of_noOccur (by decide)
        (singleton_noOccur (fun hm => (hchars _ hm).2.2.1 rfl))
    have e11 : pyReplace t ")" "" = t :=
      pyReplace_of_noOccur (by decide)
        (singleton_noOccur (fun hm => (hchars _ hm).2.2.2 rfl))
    have e12 : huaanRule1 t = t := by unfold huaanRule1; rw [if_neg hhua1]
    have e13 : huaanRule2 t = t := by unfold huaanRule2; rw [if_neg hhua2]
    simp only [normalize_item_name, if_neg ht, e1, e2, e3, e4, e5, e6, e7, e8, e9,
      e10, e11, e12, e13, hdash, Bool.false_eq_true, if_false]

end Agg

namespace Agg

open PyStr

theorem topicWords_pats_ne : ∀ w ∈ topicWords, w.data ≠ [] := by decide

/-- Every character of a `normalize_topic_name` output satisfies the
output invariants. -/
theorem normalize_topic_name_chars (x : String) :
    ∀ c ∈ (normalize_topic_name x).data, outChar c := by
  simp only [normalize_topic_name]
  split_ifs with h1
  · intro c hc; exact absurd hc (List.not_mem_nil c)
  · intro c hc
    have hNL2 : ∀ d ∈ (pyReplace (pyReplace (pyLower (pyStrip (pyNFKC x))) "（" "(")
        "）" ")").data, nfkcChar d = d ∧ pyLowerChar d = d := by
      intro d hd
      rcases mem_pyReplace hd with hd2 | hd2
      · rcases mem_pyReplace hd2 with hd3 | hd3
        · exact lowered_chars x d hd3
        · exact parenL_chars d hd3
      · exact parenR_chars d hd2
    have hABC3 : ∀ d ∈ (removeSpaces (pyReplace (pyReplace (pyLower (pyStrip (pyNFKC x)))
        "（" "(") "）" ")")).data, abcChar d := by
      intro d hd
      have h := mem_removeSpaces hd
      exact ⟨(hNL2 d h.1).1, (hNL2 d h.1).2, h.2⟩
    have hABC4 : ∀ d ∈ (topicWords.foldl (fun t w => pyReplace t w "")
        (removeSpaces (pyReplace (pyReplace (pyLower (pyStrip (pyNFKC x)))
          "（" "(") "）" ")"))).data, abcChar d :=
      foldl_topicReplace_chars topicWords _ hABC3
    have hc7 := mem_pyReplace_single (a := ')') rfl hc
    have hc6 := mem_pyReplace_single (a := '(') rfl hc7.1
    have hc5 := mem_removeChars hc6.1
    exact ⟨hABC4 c hc5.1, hc5.2, hc6.2, hc7.2⟩

/-- Fixpoint: a string with the output-character invariants that contains
none of the stripped topic vocabulary passes `normalize_topic_name`
unchanged. -/
theorem normalize_topic_name_fix (t : String)
    (hchars : ∀ c ∈ t.data, outChar c)
    (hwords : ∀ w ∈ topicWords, ¬ w.data <:+: t.data) :
    normalize_topic_name t = t := by
  by_cases ht : t = ""
  · rw [ht]; rfl
  · have e1 : pyNFKC t = t := pyNFKC_eq_self (fun c hc => (hchars c hc).1.1)
    have e2 : pyStrip t = t := pyStrip_eq_self (fun c hc => (hchars c hc).1.2.2)
    have e3 : pyLower t = t := pyLower_eq_self (fun c hc => (hchars c hc).1.2.1)
    have e4 : pyReplace t "（" "(" = t :=
      pyReplace_of_noOccur (by decide)
        (singleton_noOccur (fun hm => outChar_ne_fullParenL (hchars _ hm) rfl))
    have e5 : pyReplace t "）" ")" = t :=
      pyReplace_of_noOccur (by decide)
        (singleton_noOccur (fun hm => outChar_ne_fullParenR (hchars _ hm) rfl))
    have e6 : removeSpaces t = t := removeSpaces_eq_self (fun c hc => (hchars c hc).1.2.2)
    have e8 : topicWords.foldl (fun t w => pyReplace t w "") t = t :=
      foldl_topicReplace_id topicWords t
        (fun w hw => ⟨topicWords_pats_ne w hw, hwords w hw⟩)
    have e9 : removeChars bracketChars t = t :=
      removeChars_eq_self (fun c hc => (hchars c hc).2.1)
    have e10 : pyReplace t "(" "" = t :=
      pyReplace_of_noOccur (by decide)
        (singleton_noOccur (fun hm => (hchars _ hm).2.2.1 rfl))
    have e11 : pyReplace t ")" "" = t :=
      pyReplace_of_noOccur (by decide)
        (singleton_noOccur (fun hm => (hchars _ hm).2.2.2 rfl))
    simp only [normalize_topic_name, if_neg ht, e1, e2, e3, e4, e5, e6, e8, e9, e10, e11]

end Agg

/-- C5, counterexample: neither normalizer is idempotent on all names.
Deleting a stripped vocabulary word can create a fresh occurrence of
another (or the same) stripped word, which a second pass then deletes:
`normalize_topic_name "指指数数" = "指数"` but a second pass gives `""`,
and `normalize_item_name "中中证证" = "中证"` but a second pass gives
`""`. -/
theorem C5_normalize_idempotence_counterexample :
    Agg.normalize_topic_name (Agg.normalize_topic_name "指指数数") ≠
      Agg.normalize_topic_name "指指数数" ∧
    Agg.normalize_item_name (Agg.normalize_item_name "中中证证") ≠
      Agg.normalize_item_name "中中证证" := by
  decide

/-- C5, amended: normalization is idempotent for every name whose
normalized form contains none of the stripped vocabulary substrings — for
the theme normalizer none of its ten stripped words, and for the item
normalizer none of its deleted brand/index markers, no run of six
consecutive ASCII digits, and a form that is not a pure dash run. -/
theorem C5_normalize_idempotence_amended (x y : String)
    (hx : ∀ w ∈ Agg.topicWords, ¬ w.data <:+: (Agg.normalize_topic_name x).data)
    (hy : ∀ pr ∈ Agg.itemReplacements, ¬ pr.1.data <:+: (Agg.normalize_item_name y).data)
    (hy6 : PyStr.noSix 0 (Agg.normalize_item_name y).data = true)
    (hyd : PyStr.isDashRun (Agg.normalize_item_name y) = false) :
    Agg.normalize_topic_name (Agg.normalize_topic_name x) = Agg.normalize_topic_name x ∧
    Agg.normalize_item_name (Agg.normalize_item_name y) = Agg.normalize_item_name y := by
  constructor
  · exact Agg.normalize_topic_name_fix _ (Agg.normalize_topic_name_chars x) hx
  · rcases Agg.normalize_item_name_no_huaan y with ⟨ha, hb⟩
    exact Agg.normalize_item_name_fix _ (Agg.normalize_item_name_chars y) ha hb hyd hy6 hy

/-- C5, witness: the amended idempotence applied at the concrete names
`新能源` and `恒生科技`. -/
theorem C5_normalize_idempotence_witness :
    (∀ w ∈ Agg.topicWords, ¬ w.data <:+: (Agg.normalize_topic_name "新能源").data) ∧
    (∀ pr ∈ Agg.itemReplacements,
      ¬ pr.1.data <:+: (Agg.normalize_item_name "恒生科技").data) ∧
    PyStr.noSix 0 (Agg.normalize_item_name "恒生科技").data = true ∧
    PyStr.isDashRun (Agg.normalize_item_name "恒生科技") = false ∧
    (Agg.normalize_topic_name (Agg.normalize_topic_name "新能源") =
        Agg.normalize_topic_name "新能源" ∧
      Agg.normalize_item_name (Agg.normalize_item_name "恒生科技") =
        Agg.normalize_item_name "恒生科技") :=
  ⟨by decide, by decide, by decide, by decide,
    C5_normalize_idempotence_amended "新能源" "恒生科技"
      (by decide) (by decide) (by decide) (by decide)⟩

namespace GDF

open PyStr Util

theorem usableOf_isEmpty_false {cs : List (Option CellCandidate)}
    (h : usableOf cs ≠ []) : (usableOf cs).isEmpty = false := by
  rcases he : usableOf cs with _ | ⟨a, l⟩
  · exact absurd he h
  · rfl

theorem mem_usableOf {cs : List (Option CellCandidate)} {c : CellCandidate}
    (hc : c ∈ usableOf cs) : some c ∈ cs ∧ statTruthy c = true := by
  unfold usableOf at hc
  have h := List.mem_filter.mp hc
  rcases List.mem_filterMap.mp h.1 with ⟨oc, hoc, hid⟩
  refine ⟨?_, h.2⟩
  have hoc2 : oc = some c := hid
  exact hoc2 ▸ hoc

theorem stat_three_of_wf {cs : List (Option CellCandidate)} (hwf : wfCands cs) :
    ∀ c ∈ usableOf cs, c.direction_stat = some "增" ∨ c.direction_stat = some "减" ∨
      c.direction_stat = some "不变" := by
  intro c hc
  rcases mem_usableOf hc with ⟨hmem, htr⟩
  have hw := hwf (some c) hmem c rfl
  rcases hw with h | h | h | h
  · exfalso
    unfold statTruthy at htr
    rw [h] at htr
    simp at htr
  · exact Or.inl h
  · exact Or.inr (Or.inl h)
  · exact Or.inr (Or.inr h)

theorem countP_three_sum {l : List CellCandidate}
    (h : ∀ c ∈ l, c.direction_stat = some "增" ∨ c.direction_stat = some "减" ∨
      c.direction_stat = some "不变") :
    l.countP (fun c => c.direction_stat == some "增") +
      l.countP (fun c => c.direction_stat == some "减") +
      l.countP (fun c => c.direction_stat == some "不变") = l.length := by
  induction l with
  | nil => rfl
  | cons a as ih =>
    have ha := h a (List.mem_cons_self a as)
    have ih2 := ih (fun c hc => h c (List.mem_cons_of_mem a hc))
    simp only [List.countP_cons, List.length_cons]
    rcases ha with ha | ha | ha <;>
      rw [ha] <;>
      simp only [beq_iff_eq, Option.some.injEq] <;>
      split_ifs <;>
      first
        | omega
        | exact absurd ‹"增" = "减"› (by decide)
        | exact absurd ‹"增" = "不变"› (by decide)
        | exact absurd ‹"减" = "增"› (by decide)
        | exact absurd ‹"减" = "不变"› (by decide)
        | exact absurd ‹"不变" = "增"› (by decide)
        | exact absurd ‹"不变" = "减"› (by decide)

theorem votesFor_le_length (cs : List (Option CellCandidate)) (d : String) :
    votesFor cs d ≤ (usableOf cs).length :=
  List.countP_le_length _

theorem maxVote_le_length (cs : List (Option CellCandidate)) :
    maxVote cs ≤ (usableOf cs).length := by
  unfold maxVote
  exact max_le (votesFor_le_length cs "增")
    (max_le (votesFor_le_length cs "减") (votesFor_le_length cs "不变"))

theorem votesFor_sum_of_wf {cs : List (Option CellCandidate)} (hwf : wfCands cs) :
    votesFor cs "增" + votesFor cs "减" + votesFor cs "不变" = (usableOf cs).length := by
  unfold votesFor
  exact countP_three_sum (stat_three_of_wf hwf)

theorem maxVote_choice (cs : List (Option CellCandidate)) :
    maxVote cs = votesFor cs "增" ∨ maxVote cs = votesFor cs "减" ∨
      maxVote cs = votesFor cs "不变" := by
  unfold maxVote
  rcases max_choice (votesFor cs "增") (max (votesFor cs "减") (votesFor cs "不变"))
    with h | h
  · exact Or.inl h
  · rcases max_choice (votesFor cs "减") (votesFor cs "不变") with h2 | h2
    · exact Or.inr (Or.inl (h.trans h2))
    · exact Or.inr (Or.inr (h.trans h2))

theorem le_maxVote_inc (cs : List (Option CellCandidate)) : votesFor cs "增" ≤ maxVote cs :=
  le_max_left _ _

theorem le_maxVote_dec (cs : List (Option CellCandidate)) : votesFor cs "减" ≤ maxVote cs :=
  le_trans (le_max_left _ _) (le_max_right _ _)

theorem le_maxVote_flat (cs : List (Option CellCandidate)) :
    votesFor cs "不变" ≤ maxVote cs :=
  le_trans (le_max_right _ _) (le_max_right _ _)

theorem maxVote_pos_of_wf {cs : List (Option CellCandidate)} (hwf : wfCands cs)
    (hne : usableOf cs ≠ []) : 0 < maxVote cs := by
  have hsum := votesFor_sum_of_wf hwf
  have hlen : 0 < (usableOf cs).length := List.length_pos.mpr hne
  have h1 := le_maxVote_inc cs
  have h2 := le_maxVote_dec cs
  have h3 := le_maxVote_flat cs
  omega

theorem ratio_ge_iff {m n : ℕ} (hn : 0 < n) :
    ((m : ℚ) / (n : ℚ) ≥ 0.75) ↔ 3 * n ≤ 4 * m := by
  have h75 : (0.75 : ℚ) = 3 / 4 := by norm_num
  rw [ge_iff_le, h75, div_le_div_iff (by norm_num) (by exact_mod_cast hn)]
  constructor
  · intro h
    have : (3 * n : ℚ) ≤ (4 * m : ℚ) := by push_cast; linarith
    exact_mod_cast this
  · intro h
    have : (3 * n : ℚ) ≤ (4 * m : ℚ) := by exact_mod_cast h
    push_cast at this
    linarith

end GDF

namespace GDF

open PyStr Util

theorem consistency_eq (cs : List (Option CellCandidate)) (hne : usableOf cs ≠ []) :
    (summarize_consensus cs).1 =
      (if (usableOf cs).length = 1 then "分歧（" ++ biasOf (topDirs cs) ++ "）"
       else if maxVote cs = (usableOf cs).length then
         "一致（" ++ biasForOf (topDirs cs) ++ "）"
       else if ((maxVote cs : ℚ) / ((usableOf cs).length : ℚ) ≥ 0.75) then
         "基本一致（" ++ biasOf (topDirs cs) ++ "）"
       else "分歧（" ++ biasOf (topDirs cs) ++ "）") := by
  have hE := usableOf_isEmpty_false hne
  simp only [summarize_consensus, hE, Bool.false_eq_true, if_false, votesFor, maxVote,
    topDirs]

theorem summary_eq_of_two_le (cs : List (Option CellCandidate))
    (hne : usableOf cs ≠ []) (h2 : 2 ≤ (usableOf cs).length) :
    (summarize_consensus cs).2 = countsRendering cs ++ "；" ++ rangeRendering cs := by
  have hE := usableOf_isEmpty_false hne
  have hn1 : ¬ ((usableOf cs).length = 1) := by omega
  simp only [summarize_consensus, hE, Bool.false_eq_true, if_false, if_neg hn1,
    countsRendering, rangeRendering, votesFor]
  apply String.ext
  simp [String.data_append, List.append_assoc]

theorem summary_eq_of_one (cs : List (Option CellCandidate))
    (hne : usableOf cs ≠ []) (h1 : (usableOf cs).length = 1) :
    (summarize_consensus cs).2 = "数据不足；" ++ rangeRendering cs := by
  have hE := usableOf_isEmpty_false hne
  have hple : ((usableOf cs).filterMap (fun c => c.pct)).length ≤ 1 := by
    calc ((usableOf cs).filterMap (fun c => c.pct)).length
        ≤ (usableOf cs).length := List.length_filterMap_le _ _
      _ = 1 := h1
  simp only [summarize_consensus, hE, Bool.false_eq_true, if_false, if_pos h1,
    rangeRendering]
  rcases hp : (usableOf cs).filterMap (fun c => c.pct) with _ | ⟨p, rest⟩
  · rw [hp]
  · have hrest : rest = [] := by
      rw [hp] at hple
      simp at hple
      exact hple
    subst hrest
    rw [hp]
    simp only [List.foldl]
    apply String.ext
    simp [String.data_append, List.append_assoc]

end GDF

namespace GDF

open PyStr Util

theorem topDirs_spell (cs : List (Option CellCandidate)) :
    topDirs cs =
      ((if votesFor cs "增" = maxVote cs then ["增"] else []) ++
       (if votesFor cs "减" = maxVote cs then ["减"] else []) ++
       (if votesFor cs "不变" = maxVote cs then ["不变"] else [])) := by
  simp only [topDirs, List.filter_cons, List.filter_nil, beq_iff_eq]
  split_ifs <;> simp

theorem votesFor_top_of_single {cs : List (Option CellCandidate)} {d : String}
    (htop : topDirs cs = [d]) :
    votesFor cs d = maxVote cs ∧ (d = "增" ∨ d = "减" ∨ d = "不变") := by
  rw [topDirs_spell] at htop
  split_ifs at htop <;> simp_all

theorem two_top_of_tie {cs : List (Option CellCandidate)}
    (h : 2 ≤ (topDirs cs).length) :
    2 * maxVote cs ≤ votesFor cs "增" + votesFor cs "减" + votesFor cs "不变" := by
  rw [topDirs_spell] at h
  split_ifs at h <;> simp at h <;> omega

theorem biasOf_of_len2 {l : List String} (h : 2 ≤ l.length) : biasOf l = "无明显偏向" := by
  match l with
  | [] => simp at h
  | [d] => simp at h
  | a :: b :: t => rfl

end GDF

/-- C2: consensus label thresholds of `summarize_consensus`. With a single
plurality direction `d`: one usable source always renders disagreement
toward `d`; with at least two sources a full vote renders `一致（d）`, a
plurality ratio in `[0.75, 1)` renders `基本一致（偏d）`, and a ratio below
`0.75` renders `分歧（偏d）`. A tie for the plurality renders
`分歧（无明显偏向）`, the direction replaced by `无明显偏向`. -/
theorem C2_consensus_label_thresholds (cs : List (Option GDF.CellCandidate))
    (hwf : GDF.wfCands cs) (hne : GDF.usableOf cs ≠ []) :
    (∀ d, GDF.topDirs cs = [d] →
      (((GDF.usableOf cs).length = 1 →
          (GDF.summarize_consensus cs).1 = "分歧（" ++ GDF.biasOf [d] ++ "）") ∧
       (2 ≤ (GDF.usableOf cs).length →
          GDF.votesFor cs d = (GDF.usableOf cs).length →
          (GDF.summarize_consensus cs).1 = "一致（" ++ d ++ "）") ∧
       (2 ≤ (GDF.usableOf cs).length →
          GDF.maxVote cs < (GDF.usableOf cs).length →
          3 * (GDF.usableOf cs).length ≤ 4 * GDF.maxVote cs →
          (GDF.summarize_consensus cs).1 = "基本一致（" ++ GDF.biasOf [d] ++ "）") ∧
       (2 ≤ (GDF.usableOf cs).length →
          4 * GDF.maxVote cs < 3 * (GDF.usableOf cs).length →
          (GDF.summarize_consensus cs).1 = "分歧（" ++ GDF.biasOf [d] ++ "）"))) ∧
    (2 ≤ (GDF.topDirs cs).length →
      (GDF.summarize_consensus cs).1 = "分歧（无明显偏向）") := by
  have hceq := GDF.consistency_eq cs hne
  have hlenpos : 0 < (GDF.usableOf cs).length := List.length_pos.mpr hne
  constructor
  · intro d htop
    obtain ⟨hvd, hd3⟩ := GDF.votesFor_top_of_single htop
    refine ⟨?_, ?_, ?_, ?_⟩
    · intro h1
      rw [hceq, if_pos h1, htop]
    · intro h2 hall
      have hmaxge : GDF.votesFor cs d ≤ GDF.maxVote cs := by
        rcases hd3 with rfl | rfl | rfl
        · exact GDF.le_maxVote_inc cs
        · exact GDF.le_maxVote_dec cs
        · exact GDF.le_maxVote_flat cs
      have hmax : GDF.maxVote cs = (GDF.usableOf cs).length :=
        le_antisymm (GDF.maxVote_le_length cs) (by omega)
      rw [hceq, if_neg (by omega), if_pos hmax, htop]
      simp [GDF.biasForOf]
    · intro h2 hlt hge
      have hratio : ((GDF.maxVote cs : ℚ) / ((GDF.usableOf cs).length : ℚ) ≥ 0.75) :=
        (GDF.ratio_ge_iff (by omega)).mpr hge
      rw [hceq, if_neg (by omega), if_neg (by omega), if_pos hratio, htop]
    · intro h2 hlt4
      have hnratio :
          ¬ ((GDF.maxVote cs : ℚ) / ((GDF.usableOf cs).length : ℚ) ≥ 0.75) := by
        intro hc
        have := (GDF.ratio_ge_iff (by omega)).mp hc
        omega
      have hmaxne : ¬ (GDF.maxVote cs = (GDF.usableOf cs).length) := by
        intro he
        omega
      rw [hceq, if_neg (by omega), if_neg hmaxne, if_neg hnratio, htop]
  · intro htie
    have hbias := GDF.biasOf_of_len2 htie
    have h2max := GDF.two_top_of_tie htie
    have hsum := GDF.votesFor_sum_of_wf hwf
    have hpos := GDF.maxVote_pos_of_wf hwf hne
    by_cases h1 : (GDF.usableOf cs).length = 1
    · rw [hceq, if_pos h1, hbias]
      decide
    · have hnr :
          ¬ ((GDF.maxVote cs : ℚ) / ((GDF.usableOf cs).length : ℚ) ≥ 0.75) := by
        intro hc
        have := (GDF.ratio_ge_iff (by omega)).mp hc
        omega
      rw [hceq, if_neg h1, if_neg (by omega), if_neg hnr, hbias]
      decide

/-- C2, witness: the thresholds applied at two concrete candidate lists. -/
theorem C2_consensus_label_thresholds_witness :
    GDF.wfCands [some ⟨"28.00%（增持）", none, some "增持", some "增", "A"⟩,
        some ⟨"30.00%（增持）", none, some "增持", some "增", "B"⟩] ∧
    GDF.usableOf [some ⟨"28.00%（增持）", none, some "增持", some "增", "A"⟩,
        some ⟨"30.00%（增持）", none, some "增持", some "增", "B"⟩] ≠ [] ∧
    ((∀ d, GDF.topDirs [some ⟨"28.00%（增持）", none, some "增持", some "增", "A"⟩,
        some ⟨"30.00%（增持）", none, some "增持", some "增", "B"⟩] = [d] →
      (((GDF.usableOf [some ⟨"28.00%（增持）", none, some "增持", some "增", "A"⟩,
          some ⟨"30.00%（增持）", none, some "增持", some "增", "B"⟩]).length = 1 →
          (GDF.summarize_consensus [some ⟨"28.00%（增持）", none, some "增持", some "增", "A"⟩,
            some ⟨"30.00%（增持）", none, some "增持", some "增", "B"⟩]).1 =
            "分歧（" ++ GDF.biasOf [d] ++ "）") ∧
       (2 ≤ (GDF.usableOf [some ⟨"28.00%（增持）", none, some "增持", some "增", "A"⟩,
          some ⟨"30.00%（增持）", none, some "增持", some "增", "B"⟩]).length →
          GDF.votesFor [some ⟨"28.00%（增持）", none, some "增持", some "增", "A"⟩,
            some ⟨"30.00%（增持）", none, some "增持", some "增", "B"⟩] d =
            (GDF.usableOf [some ⟨"28.00%（增持）", none, some "增持", some "增", "A"⟩,
              some ⟨"30.00%（增持）", none, some "增持", some "增", "B"⟩]).length →
          (GDF.summarize_consensus [some ⟨"28.00%（增持）", none, some "增持", some "增", "A"⟩,
            some ⟨"30.00%（增持）", none, some "增持", some "增", "B"⟩]).1 =
            "一致（" ++ d ++ "）") ∧
       (2 ≤ (GDF.usableOf [some ⟨"28.00%（增持）", none, some "增持", some "增", "A"⟩,
          some ⟨"30.00%（增持）", none, some "增持", some "增", "B"⟩]).length →
          GDF.maxVote [some ⟨"28.00%（增持）", none, some "增持", some "增", "A"⟩,
            some ⟨"30.00%（增持）", none, some "增持", some "增", "B"⟩] <
            (GDF.usableOf [some ⟨"28.00%（增持）", none, some "增持", some "增", "A"⟩,
              some ⟨"30.00%（增持）", none, some "增持", some "增", "B"⟩]).length →
          3 * (GDF.usableOf [some ⟨"28.00%（增持）", none, some "增持", some "增", "A"⟩,
            some ⟨"30.00%（增持）", none, some "增持", some "增", "B"⟩]).length ≤
            4 * GDF.maxVote [some ⟨"28.00%（增持）", none, some "增持", some "增", "A"⟩,
              some ⟨"30.00%（增持）", none, some "增持", some "增", "B"⟩] →
          (GDF.summarize_consensus [some ⟨"28.00%（增持）", none, some "增持", some "增", "A"⟩,
            some ⟨"30.00%（增持）", none, some "增持", some "增", "B"⟩]).1 =
            "基本一致（" ++ GDF.biasOf [d] ++ "）") ∧
       (2 ≤ (GDF.usableOf [some ⟨"28.00%（增持）", none, some "增持", some "增", "A"⟩,
          some ⟨"30.00%（增持）", none, some "增持", some "增", "B"⟩]).length →
          4 * GDF.maxVote [some ⟨"28.00%（增持）", none, some "增持", some "增", "A"⟩,
            some ⟨"30.00%（增持）", none, some "增持", some "增", "B"⟩] <
            3 * (GDF.usableOf [some ⟨"28.00%（增持）", none, some "增持", some "增", "A"⟩,
              some ⟨"30.00%（增持）", none, some "增持", some "增", "B"⟩]).length →
          (GDF.summarize_consensus [some ⟨"28.00%（增持）", none, some "增持", some "增", "A"⟩,
            some ⟨"30.00%（增持）", none, some "增持", some "增", "B"⟩]).1 =
            "分歧（" ++ GDF.biasOf [d] ++ "）"))) ∧
     (2 ≤ (GDF.topDirs [some ⟨"28.00%（增持）", none, some "增持", some "增", "A"⟩,
        some ⟨"30.00%（增持）", none, some "增持", some "增", "B"⟩]).length →
      (GDF.summarize_consensus [some ⟨"28.00%（增持）", none, some "增持", some "增", "A"⟩,
        some ⟨"30.00%（增持）", none, some "增持", some "增", "B"⟩]).1 = "分歧（无明显偏向）")) :=
  ⟨by decide, by decide,
    C2_consensus_label_thresholds
      [some ⟨"28.00%（增持）", none, some "增持", some "增", "A"⟩,
       some ⟨"30.00%（增持）", none, some "增持", some "增", "B"⟩]
      (by decide) (by decide)⟩

/-- C3: zero-usable degradation. When no candidate has a classified
direction, both consensus classifiers return the explicit
`分歧（无明显偏向）` / `数据不足；范围 —–—` pair (the summary-script variant
returns it without raising), and a row is still emitted for every entity
key of the daily table. -/
theorem C3_zero_usable_degradation (cs : List (Option GDF.CellCandidate))
    (h : GDF.usableOf cs = []) :
    GDF.summarize_consensus cs = ("分歧（无明显偏向）", "数据不足；范围 —–—") ∧
    GDS.summarize_consensus cs = some ("分歧（无明显偏向）", "数据不足；范围 —–—") ∧
    (∀ (cands : List (String × List (String × List GDF.CellCandidate)))
       (model_cols catIter : List String) (k : String), k ∈ catIter →
       ∃ row ∈ (List.insertionSort GDF.catRel catIter).map (GDF.rowFor cands model_cols),
         row.head? = some k) := by
  have hE : (GDF.usableOf cs).isEmpty = true := by rw [h]; rfl
  refine ⟨?_, ?_, ?_⟩
  · simp [GDF.summarize_consensus, hE]
  · simp [GDS.summarize_consensus, hE]
  · intro cands mc catIter k hk
    have hperm := List.perm_insertionSort GDF.catRel catIter
    have hk2 : k ∈ List.insertionSort GDF.catRel catIter := hperm.mem_iff.mpr hk
    refine ⟨GDF.rowFor cands mc k, List.mem_map_of_mem _ hk2, ?_⟩
    simp [GDF.rowFor]

/-- C3, witness: the degradation applied at a list with an absent source
and a source whose cell carries no direction. -/
theorem C3_zero_usable_degradation_witness :
    GDF.usableOf [none, some ⟨"—", none, none, none, "A"⟩] = [] ∧
    (GDF.summarize_consensus [none, some ⟨"—", none, none, none, "A"⟩] =
        ("分歧（无明显偏向）", "数据不足；范围 —–—") ∧
     GDS.summarize_consensus [none, some ⟨"—", none, none, none, "A"⟩] =
        some ("分歧（无明显偏向）", "数据不足；范围 —–—") ∧
     (∀ (cands : List (String × List (String × List GDF.CellCandidate)))
        (model_cols catIter : List String) (k : String), k ∈ catIter →
        ∃ row ∈ (List.insertionSort GDF.catRel catIter).map (GDF.rowFor cands model_cols),
          row.head? = some k)) :=
  ⟨by decide, C3_zero_usable_degradation _ (by decide)⟩

namespace GDF

open PyStr Util

theorem head_disagree (x : String) :
    ("分歧（" ++ x ++ "）" : String).data.head? = some '分' := by
  rw [String.data_append, String.data_append]
  rfl

theorem head_agree (x : String) :
    ("一致（" ++ x ++ "）" : String).data.head? = some '一' := by
  rw [String.data_append, String.data_append]
  rfl

theorem head_mostly (x : String) :
    ("基本一致（" ++ x ++ "）" : String).data.head? = some '基' := by
  rw [String.data_append, String.data_append]
  rfl

theorem usableOf_append (cs ds : List (Option CellCandidate)) :
    usableOf (cs ++ ds) = usableOf cs ++ usableOf ds := by
  unfold usableOf
  rw [List.filterMap_append, List.filter_append]

theorem statTruthy_of_three {c : CellCandidate}
    (h : c.direction_stat = some "增" ∨ c.direction_stat = some "减" ∨
      c.direction_stat = some "不变") : statTruthy c = true := by
  unfold statTruthy
  rcases h with h | h | h <;> rw [h] <;> decide

theorem usableOf_single_of_truthy {c : CellCandidate} (h : statTruthy c = true) :
    usableOf [some c] = [c] := by
  unfold usableOf
  simp [h]

end GDF

/-- C6: consensus monotonicity. If the agreement label of a candidate list
is unanimous or mostly unanimous and one more vote is appended for the
existing plurality direction, the new label is again unanimous or mostly
unanimous — never a downgrade to `分歧`. -/
theorem C6_consensus_monotonicity (cs : List (Option GDF.CellCandidate))
    (c : GDF.CellCandidate) (d : String)
    (hwf : GDF.wfCands cs)
    (hstat : c.direction_stat = some d)
    (htop : GDF.topDirs cs = [d])
    (hlab : ∃ x, (GDF.summarize_consensus cs).1 = "一致（" ++ x ++ "）" ∨
        (GDF.summarize_consensus cs).1 = "基本一致（" ++ x ++ "）") :
    ∃ y, (GDF.summarize_consensus (cs ++ [some c])).1 = "一致（" ++ y ++ "）" ∨
        (GDF.summarize_consensus (cs ++ [some c])).1 = "基本一致（" ++ y ++ "）" := by
  classical
  obtain ⟨hvd, hd3⟩ := GDF.votesFor_top_of_single htop
  -- the old list has a usable candidate
  have hne : GDF.usableOf cs ≠ [] := by
    intro h0
    have hE : (GDF.usableOf cs).isEmpty = true := by rw [h0]; rfl
    rcases hlab with ⟨x, hx | hx⟩ <;>
      rw [show (GDF.summarize_consensus cs).1 = "分歧（无明显偏向）" by
        simp [GDF.summarize_consensus, hE]] at hx
    · have := congrArg (fun s => s.data.head?) hx
      dsimp only [] at this
      rw [GDF.head_agree] at this
      exact absurd this (by decide)
    · have := congrArg (fun s => s.data.head?) hx
      dsimp only [] at this
      rw [GDF.head_mostly] at this
      exact absurd this (by decide)
  -- invert the label into the numeric branch facts
  have hinv : (GDF.usableOf cs).length ≠ 1 ∧
      3 * (GDF.usableOf cs).length ≤ 4 * GDF.maxVote cs := by
    rcases hlab with ⟨x, hx | hx⟩ <;> rw [GDF.consistency_eq cs hne] at hx <;>
      split_ifs at hx with h1 h2 h3
    · have := congrArg (fun s => s.data.head?) hx
      dsimp only [] at this
      rw [GDF.head_disagree, GDF.head_agree] at this
      exact absurd this (by decide)
    · refine ⟨h1, ?_⟩
      have := GDF.maxVote_le_length cs
      omega
    · refine ⟨h1, ?_⟩
      exact (GDF.ratio_ge_iff (by
        have := List.length_pos.mpr hne
        omega)).mp h3
    · have := congrArg (fun s => s.data.head?) hx
      dsimp only [] at this
      rw [GDF.head_disagree, GDF.head_agree] at this
      exact absurd this (by decide)
    · have := congrArg (fun s => s.data.head?) hx
      dsimp only [] at this
      rw [GDF.head_disagree, GDF.head_mostly] at this
      exact absurd this (by decide)
    · have := congrArg (fun s => s.data.head?) hx
      dsimp only [] at this
      rw [GDF.head_agree, GDF.head_mostly] at this
      exact absurd this (by decide)
    · refine ⟨h1, ?_⟩
      exact (GDF.ratio_ge_iff (by
        have := List.length_pos.mpr hne
        omega)).mp h3
    · have := congrArg (fun s => s.data.head?) hx
      dsimp only [] at this
      rw [GDF.head_disagree, GDF.head_mostly] at this
      exact absurd this (by decide)
  obtain ⟨hn1, hge⟩ := hinv
  have hlenpos : 0 < (GDF.usableOf cs).length := List.length_pos.mpr hne
  -- the appended candidate is usable
  have htr : GDF.statTruthy c = true := by
    apply GDF.statTruthy_of_three
    rcases hd3 with rfl | rfl | rfl <;> simp [hstat]
  have huse : GDF.usableOf (cs ++ [some c]) = GDF.usableOf cs ++ [c] := by
    rw [GDF.usableOf_append, GDF.usableOf_single_of_truthy htr]
  -- vote bookkeeping
  have hvotes : ∀ e : String,
      GDF.votesFor (cs ++ [some c]) e =
        GDF.votesFor cs e + (if d = e then 1 else 0) := by
    intro e
    unfold GDF.votesFor
    rw [huse, List.countP_append]
    simp [hstat, List.countP_cons]
  have hlen' : (GDF.usableOf (cs ++ [some c])).length = (GDF.usableOf cs).length + 1 := by
    rw [huse, List.length_append]
    rfl
  have hne' : GDF.usableOf (cs ++ [some c]) ≠ [] := by
    rw [huse]
    simp
  -- the new plurality is still d, with one more vote
  have h1 := GDF.le_maxVote_inc cs
  have h2 := GDF.le_maxVote_dec cs
  have h3 := GDF.le_maxVote_flat cs
  have hmax' : GDF.maxVote (cs ++ [some c]) = GDF.maxVote cs + 1 := by
    have h1x := h1
    have h2x := h2
    have h3x := h3
    have hvx := hvd
    unfold GDF.maxVote at h1x h2x h3x hvx ⊢
    rw [hvotes "增", hvotes "减", hvotes "不变"]
    rcases hd3 with rfl | rfl | rfl
    · rw [if_pos rfl, if_neg (by decide : ¬ ("增" = "减")),
        if_neg (by decide : ¬ ("增" = "不变"))]
      omega
    · rw [if_neg (by decide : ¬ ("减" = "增")), if_pos rfl,
        if_neg (by decide : ¬ ("减" = "不变"))]
      omega
    · rw [if_neg (by decide : ¬ ("不变" = "增")), if_neg (by decide : ¬ ("不变" = "减")),
        if_pos rfl]
      omega
  have htop' : GDF.topDirs (cs ++ [some c]) = [d] := by
    rw [GDF.topDirs_spell]
    rw [hvotes "增", hvotes "减", hvotes "不变", hmax']
    rcases hd3 with rfl | rfl | rfl
    · rw [if_pos rfl, if_neg (by decide : ¬ ("增" = "减")),
        if_neg (by decide : ¬ ("增" = "不变"))]
      rw [if_pos (by omega), if_neg (by omega), if_neg (by omega)]
      rfl
    · rw [if_neg (by decide : ¬ ("减" = "增")), if_pos rfl,
        if_neg (by decide : ¬ ("减" = "不变"))]
      rw [if_neg (by omega), if_pos (by omega), if_neg (by omega)]
      rfl
    · rw [if_neg (by decide : ¬ ("不变" = "增")), if_neg (by decide : ¬ ("不变" = "减")),
        if_pos rfl]
      rw [if_neg (by omega), if_neg (by omega), if_pos (by omega)]
      rfl
  -- conclude via the same branch analysis on the extended list
  rw [GDF.consistency_eq _ hne', if_neg (by omega), htop']
  by_cases hm : GDF.maxVote (cs ++ [some c]) = (GDF.usableOf (cs ++ [some c])).length
  · rw [if_pos hm]
    exact ⟨GDF.biasForOf [d], Or.inl rfl⟩
  · rw [if_neg hm, if_pos ?_]
    · exact ⟨GDF.biasOf [d], Or.inr rfl⟩
    · apply (GDF.ratio_ge_iff (by omega)).mpr
      rw [hmax', hlen']
      omega

/-- C6, witness: appending a third `增` vote to a unanimous two-vote list. -/
theorem C6_consensus_monotonicity_witness :
    GDF.wfCands [some ⟨"28.00%（增持）", none, some "增持", some "增", "A"⟩,
        some ⟨"30.00%（增持）", none, some "增持", some "增", "B"⟩] ∧
    (⟨"31.00%（增持）", none, some "增持", some "增", "C"⟩ :
        GDF.CellCandidate).direction_stat = some "增" ∧
    GDF.topDirs [some ⟨"28.00%（增持）", none, some "增持", some "增", "A"⟩,
        some ⟨"30.00%（增持）", none, some "增持", some "增", "B"⟩] = ["增"] ∧
    (∃ x, (GDF.summarize_consensus [some ⟨"28.00%（增持）", none, some "增持", some "增", "A"⟩,
        some ⟨"30.00%（增持）", none, some "增持", some "增", "B"⟩]).1 = "一致（" ++ x ++ "）" ∨
      (GDF.summarize_consensus [some ⟨"28.00%（增持）", none, some "增持", some "增", "A"⟩,
        some ⟨"30.00%（增持）", none, some "增持", some "增", "B"⟩]).1 = "基本一致（" ++ x ++ "）") ∧
    (∃ y, (GDF.summarize_consensus ([some ⟨"28.00%（增持）", none, some "增持", some "增", "A"⟩,
          some ⟨"30.00%（增持）", none, some "增持", some "增", "B"⟩] ++
        [some ⟨"31.00%（增持）", none, some "增持", some "增", "C"⟩])).1 = "一致（" ++ y ++ "）" ∨
      (GDF.summarize_consensus ([some ⟨"28.00%（增持）", none, some "增持", some "增", "A"⟩,
          some ⟨"30.00%（增持）", none, some "增持", some "增", "B"⟩] ++
        [some ⟨"31.00%（增持）", none, some "增持", some "增", "C"⟩])).1 = "基本一致（" ++ y ++ "）") :=
  ⟨by decide, by decide, by decide, ⟨"增", Or.inl (by decide)⟩,
    C6_consensus_monotonicity
      [some ⟨"28.00%（增持）", none, some "增持", some "增", "A"⟩,
       some ⟨"30.00%（增持）", none, some "增持", some "增", "B"⟩]
      ⟨"31.00%（增持）", none, some "增持", some "增", "C"⟩ "增"
      (by decide) (by decide) (by decide) ⟨"增", Or.inl (by decide)⟩⟩

namespace GDF

open PyStr Util

theorem mem_countsRendering_inc (cs : List (Option CellCandidate)) :
    '增' ∈ (countsRendering cs).data := by
  unfold countsRendering
  rw [String.data_append, String.data_append, String.data_append, String.data_append,
    String.data_append]
  refine List.mem_append.mpr (Or.inl ?_)
  refine List.mem_append.mpr (Or.inl ?_)
  refine List.mem_append.mpr (Or.inl ?_)
  refine List.mem_append.mpr (Or.inl ?_)
  refine List.mem_append.mpr (Or.inr ?_)
  decide

end GDF

/-- C9, counterexample: with exactly one usable source the rendered
summary is `数据不足；范围 …` and does not state the per-class vote counts
(it contains no `增` character at all), so the claim that every summary
with at least one usable candidate carries the vote counts is false. -/
theorem C9_summary_contents_counterexample : ¬ GDF.claimC9Pred := by
  intro h
  have h1 := (h [some ⟨"x", none, some "增持", some "增", "A"⟩] (by decide) (by decide)).1
  have hsum : (GDF.summarize_consensus
      [some ⟨"x", none, some "增持", some "增", "A"⟩]).2 = "数据不足；范围 —–—" := by decide
  rw [hsum] at h1
  rcases h1 with ⟨s, t, e⟩
  have hmem : '增' ∈ ("数据不足；范围 —–—" : String).data := by
    rw [← e]
    refine List.mem_append.mpr (Or.inl ?_)
    refine List.mem_append.mpr (Or.inr ?_)
    exact GDF.mem_countsRendering_inc _
  exact absurd hmem (by decide)

/-- C9, amended: with at least two usable sources the summary states the
per-class vote counts followed by the magnitude range; with exactly one
usable source it is `数据不足；` followed by the range only, the vote
counts omitted. -/
theorem C9_summary_contents_amended (cs : List (Option GDF.CellCandidate))
    (hne : GDF.usableOf cs ≠ []) :
    (2 ≤ (GDF.usableOf cs).length →
      (GDF.summarize_consensus cs).2 =
        GDF.countsRendering cs ++ "；" ++ GDF.rangeRendering cs) ∧
    ((GDF.usableOf cs).length = 1 →
      (GDF.summarize_consensus cs).2 = "数据不足；" ++ GDF.rangeRendering cs ∧
      "数据不足；".data <+: ((GDF.summarize_consensus cs).2).data) := by
  constructor
  · intro h2
    exact GDF.summary_eq_of_two_le cs hne h2
  · intro h1
    have he := GDF.summary_eq_of_one cs hne h1
    refine ⟨he, ?_⟩
    rw [he, String.data_append]
    exact ⟨(GDF.rangeRendering cs).data, rfl⟩

/-- C9, witness: the amended summary contents at a concrete two-source
list. -/
theorem C9_summary_contents_witness :
    GDF.usableOf [some ⟨"增持", none, some "增持", some "增", "A"⟩,
        some ⟨"减持", none, some "减持", some "减", "B"⟩] ≠ [] ∧
    ((2 ≤ (GDF.usableOf [some ⟨"增持", none, some "增持", some "增", "A"⟩,
        some ⟨"减持", none, some "减持", some "减", "B"⟩]).length →
      (GDF.summarize_consensus [some ⟨"增持", none, some "增持", some "增", "A"⟩,
          some ⟨"减持", none, some "减持", some "减", "B"⟩]).2 =
        GDF.countsRendering [some ⟨"增持", none, some "增持", some "增", "A"⟩,
            some ⟨"减持", none, some "减持", some "减", "B"⟩] ++ "；" ++
          GDF.rangeRendering [some ⟨"增持", none, some "增持", some "增", "A"⟩,
            some ⟨"减持", none, some "减持", some "减", "B"⟩]) ∧
     ((GDF.usableOf [some ⟨"增持", none, some "增持", some "增", "A"⟩,
        some ⟨"减持", none, some "减持", some "减", "B"⟩]).length = 1 →
      (GDF.summarize_consensus [some ⟨"增持", none, some "增持", some "增", "A"⟩,
          some ⟨"减持", none, some "减持", some "减", "B"⟩]).2 =
        "数据不足；" ++ GDF.rangeRendering [some ⟨"增持", none, some "增持", some "增", "A"⟩,
            some ⟨"减持", none, some "减持", some "减", "B"⟩] ∧
      "数据不足；".data <+:
        ((GDF.summarize_consensus [some ⟨"增持", none, some "增持", some "增", "A"⟩,
          some ⟨"减持", none, some "减持", some "减", "B"⟩]).2).data)) :=
  ⟨by decide,
    C9_summary_contents_amended
      [some ⟨"增持", none, some "增持", some "增", "A"⟩,
       some ⟨"减持", none, some "减持", some "减", "B"⟩] (by decide)⟩

namespace GDF

open PyStr Util

instance : IsTotal CellCandidate rawModelGe :=
  ⟨fun a b => (le_total a.raw_model.data b.raw_model.data).elim Or.inr Or.inl⟩

instance : IsTrans CellCandidate rawModelGe :=
  ⟨fun _ _ _ hab hbc => le_trans hbc hab⟩

theorem foldl_max_init_le (l : List ℕ) (a : ℕ) : a ≤ l.foldl max a := by
  induction l generalizing a with
  | nil => exact le_refl a
  | cons b bs ih => exact le_trans (le_max_left a b) (ih (max a b))

theorem le_foldl_max {l : List ℕ} {x : ℕ} (hx : x ∈ l) (a : ℕ) : x ≤ l.foldl max a := by
  induction l generalizing a with
  | nil => cases hx
  | cons b bs ih =>
    rcases List.mem_cons.mp hx with rfl | h
    · exact le_trans (le_max_right a x) (foldl_max_init_le bs (max a x))
    · exact ih h (max a b)

theorem foldl_max_mem (l : List ℕ) (a : ℕ) : l.foldl max a = a ∨ l.foldl max a ∈ l := by
  induction l generalizing a with
  | nil => exact Or.inl rfl
  | cons b bs ih =>
    rcases ih (max a b) with h | h
    · rcases max_choice a b with h2 | h2
      · exact Or.inl (by rw [List.foldl_cons, h, h2])
      · exact Or.inr (by rw [List.foldl_cons, h, h2]; exact List.mem_cons_self b bs)
    · exact Or.inr (List.mem_cons_of_mem b h)

theorem sorted_rawModel_head {l : List CellCandidate} (hne : l ≠ []) :
    ∃ x, (List.insertionSort rawModelGe l).head? = some x ∧ x ∈ l ∧
      ∀ y ∈ l, strLe y.raw_model x.raw_model := by
  have hsorted := List.sorted_insertionSort rawModelGe l
  have hperm := List.perm_insertionSort rawModelGe l
  rcases hs : List.insertionSort rawModelGe l with _ | ⟨x, rest⟩
  · exfalso
    rw [hs] at hperm
    exact hne hperm.symm.eq_nil
  · rw [hs] at hperm hsorted
    refine ⟨x, rfl, ?_, ?_⟩
    · exact hperm.mem_iff.mp (List.mem_cons_self x rest)
    · intro y hy
      have hy2 : y ∈ x :: rest := hperm.mem_iff.mpr hy
      rcases List.mem_cons.mp hy2 with rfl | hy3
      · exact le_refl _
      · exact List.rel_of_sorted_cons hsorted y hy3

theorem pool_ne_nil {cands : List CellCandidate} (hne : cands ≠ []) :
    poolOf cands ≠ [] := by
  unfold poolOf
  by_cases h : (nonMissingOf cands).isEmpty
  · rwa [if_pos h]
  · rw [if_neg h]
    intro he
    rw [he] at h
    exact h rfl

theorem max_attained {l : List CellCandidate} (hne : l ≠ []) :
    ∃ c ∈ l, c.display.data.length = (l.map (fun c => c.display.data.length)).foldl max 0 := by
  rcases foldl_max_mem (l.map (fun c => c.display.data.length)) 0 with h | h
  · rcases l with _ | ⟨c0, rest⟩
    · exact absurd rfl hne
    · refine ⟨c0, List.mem_cons_self c0 rest, ?_⟩
      have hle : c0.display.data.length ≤
          ((c0 :: rest).map (fun c => c.display.data.length)).foldl max 0 :=
        le_foldl_max
          (List.mem_map_of_mem (fun c => c.display.data.length)
            (List.mem_cons_self c0 rest)) 0
      omega
  · rcases List.mem_map.mp h with ⟨c, hc, he⟩
    exact ⟨c, hc, he⟩

/-- The shared core of both candidate selectors: the head of the
reverse-sorted longest pool members is in the pool, has maximal display
length there, and maximal `raw_model` among the length ties. -/
theorem longest_head_props (pool : List CellCandidate) (hne : pool ≠ []) :
    ∃ c, (List.insertionSort rawModelGe (pool.filter (fun c =>
        c.display.data.length == (pool.map (fun c => c.display.data.length)).foldl max 0))).head? =
        some c ∧
      c ∈ pool ∧
      (∀ c' ∈ pool, c'.display.data.length ≤ c.display.data.length) ∧
      (∀ c' ∈ pool, c'.display.data.length = c.display.data.length →
        strLe c'.raw_model c.raw_model) := by
  rcases max_attained hne with ⟨cm, hcm, hcme⟩
  have hlne : pool.filter (fun c =>
      c.display.data.length == (pool.map (fun c => c.display.data.length)).foldl max 0) ≠ [] := by
    intro he
    have : cm ∈ pool.filter (fun c =>
        c.display.data.length == (pool.map (fun c => c.display.data.length)).foldl max 0) :=
      List.mem_filter.mpr ⟨hcm, by simp [hcme]⟩
    rw [he] at this
    cases this
  rcases sorted_rawModel_head hlne with ⟨x, hhead, hxmem, hxmax⟩
  have hxf := List.mem_filter.mp hxmem
  have hxlen : x.display.data.length =
      (pool.map (fun c => c.display.data.length)).foldl max 0 := by
    have := hxf.2
    simpa using this
  refine ⟨x, hhead, hxf.1, ?_, ?_⟩
  · intro c' hc'
    have := le_foldl_max (List.mem_map_of_mem (fun c => c.display.data.length) hc') 0
    dsimp only [] at this
    omega
  · intro c' hc' hlen
    exact hxmax c' (List.mem_filter.mpr ⟨hc', by rw [hlen, hxlen]; simp⟩)

theorem nonMissing_mem {cands : List CellCandidate} {c : CellCandidate}
    (h : c ∈ nonMissingOf cands) : c ∈ cands ∧ pyStrip c.display ≠ "—" := by
  have h2 := List.mem_filter.mp h
  refine ⟨h2.1, ?_⟩
  have := h2.2
  simpa [bne] using this

theorem pool_subset {cands : List CellCandidate} {c : CellCandidate}
    (h : c ∈ poolOf cands) : c ∈ cands := by
  unfold poolOf at h
  by_cases he : (nonMissingOf cands).isEmpty
  · rwa [if_pos he] at h
  · rw [if_neg he] at h
    exact (nonMissing_mem h).1

end GDF

namespace GDF

open PyStr Util

theorem nonMissing_of_mem_strip {cands : List CellCandidate} {c : CellCandidate}
    (h1 : c ∈ cands) (h2 : pyStrip c.display ≠ "—") : c ∈ nonMissingOf cands :=
  List.mem_filter.mpr ⟨h1, by simpa [bne_iff_ne] using h2⟩

theorem poolOf_eq_nonMissing {cands : List CellCandidate}
    (h : nonMissingOf cands ≠ []) : poolOf cands = nonMissingOf cands := by
  have hb : ¬ ((nonMissingOf cands).isEmpty = true) := by
    intro he
    rcases hx : nonMissingOf cands with _ | ⟨a, l⟩
    · exact h hx
    · rw [hx, List.isEmpty_cons] at he
      simp at he
  unfold poolOf
  rw [if_neg hb]

theorem select_eq_longest (cands : List CellCandidate) (hne : cands ≠ []) :
    select_best_candidate cands =
      (List.insertionSort rawModelGe ((poolOf cands).filter (fun c =>
        c.display.data.length ==
          ((poolOf cands).map (fun c => c.display.data.length)).foldl max 0))).head? := by
  rcases cands with _ | ⟨x, xs⟩
  · exact absurd rfl hne
  · rfl

/-- The final-report selector satisfies the full claimed selection
contract. -/
theorem select_spec_holds : selectSpec select_best_candidate := by
  constructor
  · intro cands
    constructor
    · intro h
      by_contra hne
      rcases longest_head_props (poolOf cands) (pool_ne_nil hne) with ⟨c, hhead, _, _, _⟩
      rw [select_eq_longest cands hne, hhead] at h
      cases h
    · intro h
      rw [h]
      rfl
  · intro cands hne
    rcases longest_head_props (poolOf cands) (pool_ne_nil hne) with ⟨c, hhead, hmem, hlen, htie⟩
    refine ⟨c, ?_, pool_subset hmem, hmem, ?_, hlen, htie⟩
    · rw [select_eq_longest cands hne]
      exact hhead
    · rintro ⟨c', hc', hstrip⟩
      have hnm : c' ∈ nonMissingOf cands := nonMissing_of_mem_strip hc' hstrip
      have hpe : poolOf cands = nonMissingOf cands :=
        poolOf_eq_nonMissing (fun he => by rw [he] at hnm; cases hnm)
      rw [hpe] at hmem
      exact (nonMissing_mem hmem).2

end GDF

theorem GDS_select_eq_miss (x : GDF.CellCandidate) (xs : List GDF.CellCandidate)
    (h : GDF.nonMissingOf (x :: xs) = []) :
    GDS.select_best_candidate (x :: xs) =
      (List.insertionSort GDF.rawModelGe (x :: xs)).head? := by
  have h2 : (x :: xs).filter (fun c => PyStr.pyStrip c.display != "—") = [] := h
  simp only [GDS.select_best_candidate, h2]

theorem GDS_select_eq_nm (x : GDF.CellCandidate) (xs : List GDF.CellCandidate)
    (y : GDF.CellCandidate) (ys : List GDF.CellCandidate)
    (h : GDF.nonMissingOf (x :: xs) = y :: ys) :
    GDS.select_best_candidate (x :: xs) =
      (List.insertionSort GDF.rawModelGe ((y :: ys).filter (fun c =>
        c.display.data.length ==
          ((y :: ys).map (fun c => c.display.data.length)).foldl max 0))).head? := by
  have h2 : (x :: xs).filter (fun c => PyStr.pyStrip c.display != "—") = y :: ys := h
  simp only [GDS.select_best_candidate, h2]

/-- The selection properties the summary-script selector does satisfy:
defined iff non-empty, returns a member, prefers non-missing candidates
with maximal display length and reverse-lexicographically maximal source
among length ties whenever a non-missing candidate exists, and when every
candidate is missing returns a candidate of reverse-lexicographically
maximal source identifier (regardless of display length). -/
theorem GDS_select_props (cands : List GDF.CellCandidate) (hne : cands ≠ []) :
    ∃ c, GDS.select_best_candidate cands = some c ∧ c ∈ cands ∧
      ((∃ c' ∈ cands, PyStr.pyStrip c'.display ≠ "—") →
        PyStr.pyStrip c.display ≠ "—" ∧
        (∀ c' ∈ GDF.nonMissingOf cands, c'.display.data.length ≤ c.display.data.length) ∧
        (∀ c' ∈ GDF.nonMissingOf cands, c'.display.data.length = c.display.data.length →
          Util.strLe c'.raw_model c.raw_model)) ∧
      ((∀ c' ∈ cands, PyStr.pyStrip c'.display = "—") →
        ∀ c' ∈ cands, Util.strLe c'.raw_model c.raw_model) := by
  rcases cands with _ | ⟨x, xs⟩
  · exact absurd rfl hne
  · rcases hnm : GDF.nonMissingOf (x :: xs) with _ | ⟨y, ys⟩
    · rcases GDF.sorted_rawModel_head (List.cons_ne_nil x xs) with ⟨c, hhead, hcmem, hcmax⟩
      refine ⟨c, ?_, hcmem, ?_, ?_⟩
      · rw [GDS_select_eq_miss x xs hnm]
        exact hhead
      · rintro ⟨c', hc', hstrip⟩
        have hin : c' ∈ GDF.nonMissingOf (x :: xs) := GDF.nonMissing_of_mem_strip hc' hstrip
        rw [hnm] at hin
        cases hin
      · intro _ c' hc'
        exact hcmax c' hc'
    · have hpne : GDF.nonMissingOf (x :: xs) ≠ [] := by
        rw [hnm]
        exact List.cons_ne_nil y ys
      rcases GDF.longest_head_props (GDF.nonMissingOf (x :: xs)) hpne with
        ⟨c, hhead, hcmem, hlen, htie⟩
      refine ⟨c, ?_, (GDF.nonMissing_mem hcmem).1, ?_, ?_⟩
      · rw [GDS_select_eq_nm x xs y ys hnm, ← hnm]
        exact hhead
      · intro _
        rw [hnm] at hlen htie
        exact ⟨(GDF.nonMissing_mem hcmem).2, hlen, htie⟩
      · intro hall
        exfalso
        have hy : y ∈ GDF.nonMissingOf (x :: xs) := by
          rw [hnm]
          exact List.mem_cons_self y ys
        have hym := GDF.nonMissing_mem hy
        exact hym.2 (hall y hym.1)

/-- C8, counterexample: the summary-script `select_best_candidate` violates
the claimed contract. On the two all-missing candidates `(" —", source "A")`
and `("—", source "B")` it returns the source-"B" candidate of display
length 1, although the source-"A" candidate in the preferred pool has the
strictly larger display length 2 — when every candidate is missing this
selector maximizes the source identifier and ignores display length. -/
theorem C8_candidate_selection_counterexample :
    ¬ GDF.selectSpec GDS.select_best_candidate := by
  intro hspec
  rcases hspec.2 [⟨" —", none, none, none, "A"⟩, ⟨"—", none, none, none, "B"⟩]
      (by decide) with ⟨c, hsel, _, _, _, hlen, _⟩
  have hval : GDS.select_best_candidate
      [⟨" —", none, none, none, "A"⟩, ⟨"—", none, none, none, "B"⟩] =
      some ⟨"—", none, none, none, "B"⟩ := by decide
  rw [hval] at hsel
  have hc : c = ⟨"—", none, none, none, "B"⟩ := (Option.some_inj.mp hsel).symm
  have hmem : (⟨" —", none, none, none, "A"⟩ : GDF.CellCandidate) ∈
      GDF.poolOf [⟨" —", none, none, none, "A"⟩, ⟨"—", none, none, none, "B"⟩] := by
    decide
  have hle := hlen _ hmem
  rw [hc] at hle
  exact absurd hle (by decide)

/-- C8, amended: the final-report `select_best_candidate` satisfies the
claimed contract in full: `none` iff the input is empty, and otherwise it
returns a member of the preferred pool (the non-missing candidates if any
exist, else all candidates) of maximal display length there, with the
reverse-lexicographically greatest source identifier among the length
ties. The summary-script variant agrees on definedness, membership and —
whenever some candidate is non-missing — on the non-missing preference,
maximal display length and source tie-break; but when every candidate is
missing it returns a candidate of reverse-lexicographically maximal source
identifier regardless of display length. -/
theorem C8_candidate_selection_amended :
    GDF.selectSpec GDF.select_best_candidate ∧
    (∀ cands, GDS.select_best_candidate cands = none ↔ cands = []) ∧
    (∀ cands, cands ≠ [] → ∃ c, GDS.select_best_candidate cands = some c ∧ c ∈ cands ∧
      ((∃ c' ∈ cands, PyStr.pyStrip c'.display ≠ "—") →
        PyStr.pyStrip c.display ≠ "—" ∧
        (∀ c' ∈ GDF.nonMissingOf cands, c'.display.data.length ≤ c.display.data.length) ∧
        (∀ c' ∈ GDF.nonMissingOf cands, c'.display.data.length = c.display.data.length →
          Util.strLe c'.raw_model c.raw_model)) ∧
      ((∀ c' ∈ cands, PyStr.pyStrip c'.display = "—") →
        ∀ c' ∈ cands, Util.strLe c'.raw_model c.raw_model)) := by
  refine ⟨GDF.select_spec_holds, ?_, GDS_select_props⟩
  intro cands
  constructor
  · intro h
    by_contra hne
    rcases GDS_select_props cands hne with ⟨c, hsel, _⟩
    rw [hsel] at h
    cases h
  · intro h
    rw [h]
    rfl

/-- C8, witness: the amended selection properties applied at a concrete
two-candidate list with one non-missing and one missing display. -/
theorem C8_candidate_selection_amended_witness :
    ([⟨"增持 2%", none, none, none, "A"⟩, ⟨"—", none, none, none, "B"⟩] :
        List GDF.CellCandidate) ≠ [] ∧
    (∃ c, GDS.select_best_candidate
        [⟨"增持 2%", none, none, none, "A"⟩, ⟨"—", none, none, none, "B"⟩] = some c ∧
      c ∈ ([⟨"增持 2%", none, none, none, "A"⟩, ⟨"—", none, none, none, "B"⟩] :
        List GDF.CellCandidate) ∧
      ((∃ c' ∈ ([⟨"增持 2%", none, none, none, "A"⟩, ⟨"—", none, none, none, "B"⟩] :
          List GDF.CellCandidate), PyStr.pyStrip c'.display ≠ "—") →
        PyStr.pyStrip c.display ≠ "—" ∧
        (∀ c' ∈ GDF.nonMissingOf
            [⟨"增持 2%", none, none, none, "A"⟩, ⟨"—", none, none, none, "B"⟩],
          c'.display.data.length ≤ c.display.data.length) ∧
        (∀ c' ∈ GDF.nonMissingOf
            [⟨"增持 2%", none, none, none, "A"⟩, ⟨"—", none, none, none, "B"⟩],
          c'.display.data.length = c.display.data.length →
            Util.strLe c'.raw_model c.raw_model)) ∧
      ((∀ c' ∈ ([⟨"增持 2%", none, none, none, "A"⟩, ⟨"—", none, none, none, "B"⟩] :
          List GDF.CellCandidate), PyStr.pyStrip c'.display = "—") →
        ∀ c' ∈ ([⟨"增持 2%", none, none, none, "A"⟩, ⟨"—", none, none, none, "B"⟩] :
          List GDF.CellCandidate), Util.strLe c'.raw_model c.raw_model)) :=
  ⟨by decide, C8_candidate_selection_amended.2.2
    [⟨"增持 2%", none, none, none, "A"⟩, ⟨"—", none, none, none, "B"⟩] (by decide)⟩

/-- C4: validation-gate atomicity. If a file of the day fails to cover
some authoritative item name (its computed missing list is non-empty) and
`--force` is not given, the validator records an issue for that file whose
`missing_items` is exactly that list, and `main` takes the early-return
path with exit code 2 — a non-zero status reached before any report text
is generated or written, so the output state is unchanged. -/
theorem C4_validation_gate (date_str : String) (plan : List GDS.PlanItem)
    (files : List GDS.ReportFile) (f : GDS.ReportFile) (vo : Bool)
    (sn : List String) (snn : List (String × List String))
    (hsn : sn = (plan.map (fun x => x.fund_name)).filter (fun nm => nm != ""))
    (hsnn : snn = GDS.buildNormToNames sn)
    (hplan : plan ≠ []) (hf : f ∈ files)
    (hmiss : GDS.missingFor sn snn f ≠ []) :
    (∃ issue ∈ (GDS.validate_report_items_against_strategy date_str (some plan) files).2.1,
        issue.file_name = f.file_name ∧ issue.raw_model = f.raw_model ∧
        issue.missing_items = GDS.missingFor sn snn f) ∧
    ∃ code, code ≠ 0 ∧
      GDS.mainValidationGate date_str (some plan) files false vo =
        GDS.GateOutcome.earlyExit code := by
  have hpe : plan.isEmpty = false := by
    rcases plan with _ | ⟨p, ps⟩
    · exact absurd rfl hplan
    · rfl
  have h1 : (GDS.validateFile sn snn f).missing_items = GDS.missingFor sn snn f := rfl
  have hmE : (GDS.validateFile sn snn f).missing_items.isEmpty = false := by
    rw [h1]
    rcases hm : GDS.missingFor sn snn f with _ | ⟨a, l⟩
    · exact absurd hm hmiss
    · rfl
  have hv : (GDS.validate_report_items_against_strategy date_str (some plan) files).2.1 =
      (files.map (GDS.validateFile sn snn)).filter
        (fun it => !it.extra_items.isEmpty || !it.missing_items.isEmpty ||
          !it.mapped_name_mismatches.isEmpty) := by
    simp only [GDS.validate_report_items_against_strategy, hpe, Bool.false_eq_true, if_false]
    rw [← hsn, ← hsnn]
  have hfmem : GDS.validateFile sn snn f ∈
      (GDS.validate_report_items_against_strategy date_str (some plan) files).2.1 := by
    rw [hv]
    refine List.mem_filter.mpr ⟨List.mem_map_of_mem (GDS.validateFile sn snn) hf, ?_⟩
    simp [hmE]
  have hfatal : (GDS.validate_report_items_against_strategy date_str
      (some plan) files).2.1.filter (fun it => !it.missing_items.isEmpty) ≠ [] := by
    apply List.ne_nil_of_mem (a := GDS.validateFile sn snn f)
    refine List.mem_filter.mpr ⟨hfmem, ?_⟩
    simp [hmE]
  have hfE : ((GDS.validate_report_items_against_strategy date_str
      (some plan) files).2.1.filter (fun it => !it.missing_items.isEmpty)).isEmpty = false := by
    rcases hx : (GDS.validate_report_items_against_strategy date_str
        (some plan) files).2.1.filter (fun it => !it.missing_items.isEmpty) with _ | ⟨a, l⟩
    · exact absurd hx hfatal
    · rw [hx]
      rfl
  refine ⟨⟨GDS.validateFile sn snn f, hfmem, rfl, rfl, h1⟩, 2, by decide, ?_⟩
  cases vo <;> simp [GDS.mainValidationGate, hfE]

/-- C4, witness: the validation gate at a one-fund plan and a single report
file whose item table is empty, so the authoritative name is missing. -/
theorem C4_validation_gate_witness :
    GDS.missingFor ["基金A"] (GDS.buildNormToNames ["基金A"])
        ⟨"fundadvisor.md", "fundadvisor", []⟩ ≠ [] ∧
    ((∃ issue ∈ (GDS.validate_report_items_against_strategy "2025-09-01"
          (some [⟨"基金A", "000001"⟩]) [⟨"fundadvisor.md", "fundadvisor", []⟩]).2.1,
        issue.file_name = (⟨"fundadvisor.md", "fundadvisor", []⟩ : GDS.ReportFile).file_name ∧
        issue.raw_model = (⟨"fundadvisor.md", "fundadvisor", []⟩ : GDS.ReportFile).raw_model ∧
        issue.missing_items = GDS.missingFor ["基金A"] (GDS.buildNormToNames ["基金A"])
          ⟨"fundadvisor.md", "fundadvisor", []⟩) ∧
      ∃ code, code ≠ 0 ∧
        GDS.mainValidationGate "2025-09-01" (some [⟨"基金A", "000001"⟩])
          [⟨"fundadvisor.md", "fundadvisor", []⟩] false false =
          GDS.GateOutcome.earlyExit code) :=
  ⟨by decide, C4_validation_gate "2025-09-01" [⟨"基金A", "000001"⟩]
    [⟨"fundadvisor.md", "fundadvisor", []⟩] ⟨"fundadvisor.md", "fundadvisor", []⟩ false
    ["基金A"] (GDS.buildNormToNames ["基金A"]) rfl rfl (by decide)
    (List.mem_cons_self _ _) (by decide)⟩

theorem score_bound_aux (i d f : ℕ) (h : 0 < i + d + f) :
    -1 ≤ ((i : ℚ) - (d : ℚ)) / ((i + d + f : ℕ) : ℚ) ∧
    ((i : ℚ) - (d : ℚ)) / ((i + d + f : ℕ) : ℚ) ≤ 1 := by
  have ht : (0 : ℚ) < ((i + d + f : ℕ) : ℚ) := by exact_mod_cast h
  have h0i : (0 : ℚ) ≤ (i : ℚ) := Nat.cast_nonneg i
  have h0d : (0 : ℚ) ≤ (d : ℚ) := Nat.cast_nonneg d
  have h0f : (0 : ℚ) ≤ (f : ℚ) := Nat.cast_nonneg f
  constructor
  · rw [le_div_iff ht]
    push_cast
    linarith
  · rw [div_le_one ht]
    push_cast
    linarith

/-- C10: whenever the weekly signal score is defined — at least one day of
the window has a winning direction equal to the increase label, the
decrease label, or `不变` — the score `(inc_days − dec_days) / total`
lies in the closed interval `[−1, 1]`, and the rendered signal strength
`abs(score) · 100` never exceeds `100`. -/
theorem C10_score_bounds (main_dirs : List (Option String)) (li ld : String)
    (h : 0 < GWS.usableDays main_dirs li ld) :
    ∃ q, GWS.signal_score_from_main_dirs main_dirs li ld = some q ∧
      -1 ≤ q ∧ q ≤ 1 ∧
      GWS.signal_strength_value (GWS.signal_score_from_main_dirs main_dirs li ld) =
        some (|q| * 100) ∧
      |q| * 100 ≤ 100 := by
  have h' : 0 < main_dirs.countP (fun x => x == some li) +
      main_dirs.countP (fun x => x == some ld) +
      main_dirs.countP (fun x => x == some "不变") := h
  have hne : ¬ (main_dirs.countP (fun x => x == some li) +
      main_dirs.countP (fun x => x == some ld) +
      main_dirs.countP (fun x => x == some "不变") ≤ 0) := by omega
  have hsc : GWS.signal_score_from_main_dirs main_dirs li ld =
      some (((main_dirs.countP (fun x => x == some li) : ℚ) -
          (main_dirs.countP (fun x => x == some ld) : ℚ)) /
        ((main_dirs.countP (fun x => x == some li) +
          main_dirs.countP (fun x => x == some ld) +
          main_dirs.countP (fun x => x == some "不变") : ℕ) : ℚ)) := by
    simp only [GWS.signal_score_from_main_dirs]
    rw [if_neg hne]
  rcases score_bound_aux _ _ _ h' with ⟨hlo, hhi⟩
  refine ⟨_, hsc, hlo, hhi, ?_, ?_⟩
  · rw [hsc]
    rfl
  · have habs := abs_le.mpr ⟨hlo, hhi⟩
    have hm := mul_le_mul_of_nonneg_right habs (by norm_num : (0 : ℚ) ≤ 100)
    linarith

/-- C10, witness: the score bounds at a one-day window that voted for the
increase label. -/
theorem C10_score_bounds_witness :
    0 < GWS.usableDays [some "增配"] "增配" "减配" ∧
    (∃ q, GWS.signal_score_from_main_dirs [some "增配"] "增配" "减配" = some q ∧
      -1 ≤ q ∧ q ≤ 1 ∧
      GWS.signal_strength_value (GWS.signal_score_from_main_dirs [some "增配"] "增配" "减配") =
        some (|q| * 100) ∧
      |q| * 100 ≤ 100) :=
  ⟨by decide, C10_score_bounds [some "增配"] "增配" "减配" (by decide)⟩

theorem score_eq (l : List (Option String)) (li ld : String) (i d f : ℕ)
    (hi : l.countP (fun x => x == some li) = i)
    (hd : l.countP (fun x => x == some ld) = d)
    (hf : l.countP (fun x => x == some "不变") = f)
    (hpos : 0 < i + d + f) :
    GWS.signal_score_from_main_dirs l li ld =
      some (((i : ℚ) - (d : ℚ)) / ((i + d + f : ℕ) : ℚ)) := by
  subst hi hd hf
  simp only [GWS.signal_score_from_main_dirs]
  rw [if_neg (by omega)]

theorem signal_action_eq_inc {q : ℚ} (h : q ≥ 0.20) :
    GWS.signal_action (some q) true = "增配" := by
  simp only [GWS.signal_action]
  rw [if_pos h, if_pos trivial]

theorem signal_action_eq_dec {q : ℚ} (h1 : ¬ q ≥ 0.20) (h2 : q ≤ -0.20) :
    GWS.signal_action (some q) true = "减配" := by
  simp only [GWS.signal_action]
  rw [if_neg h1, if_pos h2, if_pos trivial]

theorem signal_action_eq_keep {q : ℚ} (h1 : ¬ q ≥ 0.20) (h2 : ¬ q ≤ -0.20) :
    GWS.signal_action (some q) true = "维持" := by
  simp only [GWS.signal_action]
  rw [if_neg h1, if_neg h2]

theorem signal_trend_rev :
    GWS.signal_trend (some 1) (some (-1)) true = "反转：增配→减配" := by
  have h1 : GWS.signal_action (some (1 : ℚ)) true = "增配" :=
    signal_action_eq_inc (by norm_num)
  have h2 : GWS.signal_action (some (-1 : ℚ)) true = "减配" :=
    signal_action_eq_dec (by norm_num) (by norm_num)
  simp only [GWS.signal_trend, h1, h2]
  rw [if_pos (by decide : ("增配" : String) ≠ "减配" ∧ ("增配" : String) ≠ "维持" ∧
    ("减配" : String) ≠ "维持")]
  decide

theorem signal_trend_weak :
    GWS.signal_trend (some 1) (some 0) true = "变弱" := by
  have h1 : GWS.signal_action (some (1 : ℚ)) true = "增配" :=
    signal_action_eq_inc (by norm_num)
  have h2 : GWS.signal_action (some (0 : ℚ)) true = "维持" :=
    signal_action_eq_keep (by norm_num) (by norm_num)
  simp only [GWS.signal_trend, h1, h2]
  rw [if_neg (by decide : ¬ (("增配" : String) ≠ "维持" ∧ ("增配" : String) ≠ "维持" ∧
    ("维持" : String) ≠ "维持"))]
  rw [if_neg (by rw [abs_zero, abs_one]; norm_num : ¬ (|(0 : ℚ)| - |(1 : ℚ)| ≥ 0.20))]
  rw [if_pos (by rw [abs_zero, abs_one]; norm_num : |(1 : ℚ)| - |(0 : ℚ)| ≥ 0.20)]

theorem weeklyTrend_eq (l : List (Option String)) (li ld : String) (b : Bool)
    (h : ¬ GWS.k_half l.length = 0) :
    GWS.weeklyTrend l li ld b =
      GWS.signal_trend (GWS.signal_score_from_main_dirs (GWS.weeklyEarlyDirs l) li ld)
        (GWS.signal_score_from_main_dirs (GWS.weeklyLateDirs l) li ld) b := by
  simp only [GWS.weeklyTrend]
  rw [if_neg h]

theorem score_inc1 :
    GWS.signal_score_from_main_dirs [some "增配"] "增配" "减配" = some 1 := by
  rw [score_eq [some "增配"] "增配" "减配" 1 0 0 (by decide) (by decide) (by decide)
    (by decide)]
  norm_num

theorem score_dec1 :
    GWS.signal_score_from_main_dirs [some "减配"] "增配" "减配" = some (-1) := by
  rw [score_eq [some "减配"] "增配" "减配" 0 1 0 (by decide) (by decide) (by decide)
    (by decide)]
  norm_num

theorem score_mixed0 :
    GWS.signal_score_from_main_dirs [some "增配", some "减配"] "增配" "减配" = some 0 := by
  rw [score_eq [some "增配", some "减配"] "增配" "减配" 1 1 0 (by decide) (by decide)
    (by decide) (by decide)]
  norm_num

theorem score_inc3 :
    GWS.signal_score_from_main_dirs [some "增配", some "增配", some "增配"] "增配" "减配" =
      some 1 := by
  rw [score_eq [some "增配", some "增配", some "增配"] "增配" "减配" 3 0 0 (by decide)
    (by decide) (by decide) (by decide)]
  norm_num

theorem score_dec3 :
    GWS.signal_score_from_main_dirs [some "减配", some "减配", some "减配"] "增配" "减配" =
      some (-1) := by
  rw [score_eq [some "减配", some "减配", some "减配"] "增配" "减配" 0 3 0 (by decide)
    (by decide) (by decide) (by decide)]
  norm_num

/-- C7, counterexample: the implemented window split does not give the
extra day of an odd window to the late half. `compute_weekly` takes
`k = max(1, n//2)` days from each end (`main_dirs[:k]` and
`main_dirs[-k:]`), so on `n = 3` the middle day belongs to neither half:
the late half is the last day only, not the last two. On the window
增配·增配·减配 the implementation reports 反转：增配→减配, while the
claimed split (late half absorbing the middle 增配 day) would make the
late half vote 维持 and report 变弱. -/
theorem C7_weekly_half_split_counterexample :
    GWS.weeklyLateDirs [some "增配", some "增配", some "减配"] ≠
      GWS.weeklySpecLateDirs [some "增配", some "增配", some "减配"] ∧
    GWS.weeklyTrend [some "增配", some "增配", some "减配"] "增配" "减配" true =
      "反转：增配→减配" ∧
    GWS.weeklyTrendSpecSplit [some "增配", some "增配", some "减配"] "增配" "减配" true =
      "变弱" := by
  refine ⟨by decide, ?_, ?_⟩
  · rw [weeklyTrend_eq _ _ _ _ (by decide)]
    rw [show GWS.weeklyEarlyDirs [some "增配", some "增配", some "减配"] = [some "增配"]
      from by decide]
    rw [show GWS.weeklyLateDirs [some "增配", some "增配", some "减配"] = [some "减配"]
      from by decide]
    rw [score_inc1, score_dec1]
    exact signal_trend_rev
  · simp only [GWS.weeklyTrendSpecSplit]
    rw [show GWS.weeklySpecEarlyDirs [some "增配", some "增配", some "减配"] = [some "增配"]
      from by decide]
    rw [show GWS.weeklySpecLateDirs [some "增配", some "增配", some "减配"] =
      [some "增配", some "减配"] from by decide]
    rw [score_inc1, score_mixed0]
    exact signal_trend_weak

/-- C7, amended: on an odd window of at least three days the implementation
splits off `⌊n/2⌋` days at each end — the early half is the first `⌊n/2⌋`
days, the late half the last `⌊n/2⌋` days, and the middle day belongs to
neither half. The reversal behaviour itself is as claimed: an entity
winning 增配 on days 1–4 and 减配 on days 5–7 of a 7-day window gets trend
反转：增配→减配, independent of score magnitude. -/
theorem C7_weekly_half_split_amended (l : List (Option String))
    (hodd : l.length % 2 = 1) (h3 : 3 ≤ l.length) :
    (GWS.weeklyEarlyDirs l).length = l.length / 2 ∧
    (GWS.weeklyLateDirs l).length = l.length / 2 ∧
    GWS.weeklyEarlyDirs l <+: l ∧
    GWS.weeklyLateDirs l <:+ l ∧
    (GWS.weeklyEarlyDirs l).length + (GWS.weeklyLateDirs l).length + 1 = l.length ∧
    GWS.weeklyTrend
      [some "增配", some "增配", some "增配", some "增配",
       some "减配", some "减配", some "减配"] "增配" "减配" true =
      "反转：增配→减配" := by
  have hn0 : ¬ l.length = 0 := by omega
  have hk : GWS.k_half l.length = l.length / 2 := by
    unfold GWS.k_half
    rw [if_neg hn0]
    omega
  refine ⟨?_, ?_, ?_, ?_, ?_, ?_⟩
  · unfold GWS.weeklyEarlyDirs
    rw [hk, List.length_take]
    omega
  · unfold GWS.weeklyLateDirs
    rw [hk, List.length_drop]
    omega
  · exact List.take_prefix _ _
  · exact List.drop_suffix _ _
  · unfold GWS.weeklyEarlyDirs GWS.weeklyLateDirs
    rw [hk, List.length_take, List.length_drop]
    omega
  · rw [weeklyTrend_eq _ _ _ _ (by decide)]
    rw [show GWS.weeklyEarlyDirs
        [some "增配", some "增配", some "增配", some "增配",
         some "减配", some "减配", some "减配"] =
      [some "增配", some "增配", some "增配"] from by decide]
    rw [show GWS.weeklyLateDirs
        [some "增配", some "增配", some "增配", some "增配",
         some "减配", some "减配", some "减配"] =
      [some "减配", some "减配", some "减配"] from by decide]
    rw [score_inc3, score_dec3]
    exact signal_trend_rev

/-- C7, witness: the amended split at the seven-day window of the claimed
scenario. -/
theorem C7_weekly_half_split_witness :
    ([some "增配", some "增配", some "增配", some "增配",
      some "减配", some "减配", some "减配"] : List (Option String)).length % 2 = 1 ∧
    3 ≤ ([some "增配", some "增配", some "增配", some "增配",
      some "减配", some "减配", some "减配"] : List (Option String)).length ∧
    ((GWS.weeklyEarlyDirs [some "增配", some "增配", some "增配", some "增配",
        some "减配", some "减配", some "减配"]).length =
      ([some "增配", some "增配", some "增配", some "增配",
        some "减配", some "减配", some "减配"] : List (Option String)).length / 2 ∧
    (GWS.weeklyLateDirs [some "增配", some "增配", some "增配", some "增配",
        some "减配", some "减配", some "减配"]).length =
      ([some "增配", some "增配", some "增配", some "增配",
        some "减配", some "减配", some "减配"] : List (Option String)).length / 2 ∧
    GWS.weeklyEarlyDirs [some "增配", some "增配", some "增配", some "增配",
        some "减配", some "减配", some "减配"] <+:
      [some "增配", some "增配", some "增配", some "增配",
       some "减配", some "减配", some "减配"] ∧
    GWS.weeklyLateDirs [some "增配", some "增配", some "增配", some "增配",
        some "减配", some "减配", some "减配"] <:+
      [some "增配", some "增配", some "增配", some "增配",
       some "减配", some "减配", some "减配"] ∧
    (GWS.weeklyEarlyDirs [some "增配", some "增配", some "增配", some "增配",
        some "减配", some "减配", some "减配"]).length +
      (GWS.weeklyLateDirs [some "增配", some "增配", some "增配", some "增配",
        some "减配", some "减配", some "减配"]).length + 1 =
      ([some "增配", some "增配", some "增配", some "增配",
        some "减配", some "减配", some "减配"] : List (Option String)).length ∧
    GWS.weeklyTrend
      [some "增配", some "增配", some "增配", some "增配",
       some "减配", some "减配", some "减配"] "增配" "减配" true =
      "反转：增配→减配") :=
  ⟨by decide, by decide, C7_weekly_half_split_amended
    [some "增配", some "增配", some "增配", some "增配",
     some "减配", some "减配", some "减配"] (by decide) (by decide)⟩

theorem insertionSort_eq_of_perm {α : Type} (r : α → α → Prop) [DecidableRel r]
    [IsTotal α r] [IsTrans α r] [IsAntisymm α r] {l l' : List α} (h : l.Perm l') :
    List.insertionSort r l = List.insertionSort r l' :=
  List.eq_of_perm_of_sorted
    ((List.perm_insertionSort r l).trans (h.trans (List.perm_insertionSort r l').symm))
    (List.sorted_insertionSort r l) (List.sorted_insertionSort r l')

namespace GDF

theorem catKey_inj {a b : String} (h : catKey a = catKey b) : a = b := by
  unfold catKey at h
  split_ifs at h with h1 h2 h3
  · rw [toLex_inj, Prod.mk.injEq, toLex_inj, Prod.mk.injEq] at h
    exact String.ext h.2.2
  · rw [toLex_inj, Prod.mk.injEq] at h
    exact absurd h.1 (by decide)
  · rw [toLex_inj, Prod.mk.injEq] at h
    exact absurd h.1 (by decide)
  · rw [toLex_inj, Prod.mk.injEq, toLex_inj, Prod.mk.injEq] at h
    exact String.ext h.2.2

theorem itemKey_inj (fs : List (String × Nat)) {a b : String}
    (h : itemKey fs a = itemKey fs b) : a = b := by
  unfold itemKey at h
  rw [toLex_inj, Prod.mk.injEq] at h
  exact String.ext h.2

instance : IsTotal String catRel := ⟨fun a b => le_total (catKey a) (catKey b)⟩

instance : IsTrans String catRel := ⟨fun _ _ _ hab hbc => le_trans hab hbc⟩

instance : IsAntisymm String catRel := ⟨fun _ _ hab hba => catKey_inj (le_antisymm hab hba)⟩

instance (fs : List (String × Nat)) : IsTotal String (itemRel fs) :=
  ⟨fun a b => le_total (itemKey fs a) (itemKey fs b)⟩

instance (fs : List (String × Nat)) : IsTrans String (itemRel fs) :=
  ⟨fun _ _ _ hab hbc => le_trans hab hbc⟩

instance (fs : List (String × Nat)) : IsAntisymm String (itemRel fs) :=
  ⟨fun _ _ hab hba => itemKey_inj fs (le_antisymm hab hba)⟩

end GDF

set_option maxRecDepth 10000 in
/-- C1, counterexample: the summary-script aggregation is not a function
of the input file set. `main` (`scripts/generate_daily_summary.py` line
1440) enumerates the report directory with `input_dir.iterdir()` and
never sorts it, and the file order is observable in the output: theme
groups are sorted only by proposer count (stably), so two single-proposer
themes from two different files keep their encounter order. On the same
two-file set, the two enumeration orders produce markdown whose section-3
rows are swapped — not byte-identical. -/
theorem C1_determinism_counterexample :
    ([⟨"ModelA", "ModelA", [], [], [], [], [],
        [⟨"虚拟现实", "虚拟现实", none, "新增", "虚拟现实（适度参与）", "ModelA"⟩], false⟩,
      ⟨"ModelB", "ModelB", [], [], [], [], [],
        [⟨"量子计算", "量子计算", none, "新增", "量子计算（关注）", "ModelB"⟩], false⟩] :
      List GDS.ModelParsed).Perm
      [⟨"ModelB", "ModelB", [], [], [], [], [],
        [⟨"量子计算", "量子计算", none, "新增", "量子计算（关注）", "ModelB"⟩], false⟩,
       ⟨"ModelA", "ModelA", [], [], [], [], [],
        [⟨"虚拟现实", "虚拟现实", none, "新增", "虚拟现实（适度参与）", "ModelA"⟩], false⟩] ∧
    GDS.buildDailySummary "2025-09-01" []
      [⟨"ModelA", "ModelA", [], [], [], [], [],
        [⟨"虚拟现实", "虚拟现实", none, "新增", "虚拟现实（适度参与）", "ModelA"⟩], false⟩,
       ⟨"ModelB", "ModelB", [], [], [], [], [],
        [⟨"量子计算", "量子计算", none, "新增", "量子计算（关注）", "ModelB"⟩], false⟩] [] ≠
    GDS.buildDailySummary "2025-09-01" []
      [⟨"ModelB", "ModelB", [], [], [], [], [],
        [⟨"量子计算", "量子计算", none, "新增", "量子计算（关注）", "ModelB"⟩], false⟩,
       ⟨"ModelA", "ModelA", [], [], [], [], [],
        [⟨"虚拟现实", "虚拟现实", none, "新增", "虚拟现实（适度参与）", "ModelA"⟩], false⟩] [] :=
  ⟨by decide, by decide⟩

/-- C1, amended: determinism of the daily aggregation, per pipeline. The
final-report `main` is a deterministic function of its input set: it
sorts the matched files by name, and the only remaining run-to-run
variance — the iteration orders Python\'s `set` gives `all_cats` /
`all_items` — is canonicalized by sorts with injective keys, so any two
permuted iteration orders give byte-identical markdown. The summary
script canonicalizes its `all_cats` set order the same way, but it is
deterministic only as a function of the *sequence* of report files that
`input_dir.iterdir()` enumerates: it never sorts that sequence, and
permuting it can change the output bytes. -/
theorem C1_determinism_amended :
    (∀ (dateStr : String) (parsed : List GDF.ParsedDoc)
        (catIter catIter2 itemIter itemIter2 : List String),
      catIter.Perm catIter2 → itemIter.Perm itemIter2 →
      GDF.buildDailyReport dateStr parsed catIter itemIter =
        GDF.buildDailyReport dateStr parsed catIter2 itemIter2) ∧
    (∀ (dateStr : String) (source_names : List String) (parsed : List GDS.ModelParsed)
        (catIter catIter2 : List String),
      catIter.Perm catIter2 →
      GDS.buildDailySummary dateStr source_names parsed catIter =
        GDS.buildDailySummary dateStr source_names parsed catIter2) := by
  constructor
  · intro d p ci ci2 ii ii2 hc hi
    simp only [GDF.buildDailyReport]
    rw [insertionSort_eq_of_perm GDF.catRel hc,
      insertionSort_eq_of_perm (GDF.itemRel _) hi]
  · intro d sn p ci ci2 hc
    simp only [GDS.buildDailySummary]
    rw [insertionSort_eq_of_perm GDF.catRel hc]

/-- C1, witness: the amended determinism at concrete inputs — permuted
set-iteration orders for the final report, and a permuted `all_cats`
order for the summary script, each giving identical output. -/
theorem C1_determinism_amended_witness :
    (["货币类", "黄金"] : List String).Perm ["黄金", "货币类"] ∧
    (["标的X", "标的Y"] : List String).Perm ["标的Y", "标的X"] ∧
    GDF.buildDailyReport "2025-09-01" [] ["货币类", "黄金"] ["标的X", "标的Y"] =
      GDF.buildDailyReport "2025-09-01" [] ["黄金", "货币类"] ["标的Y", "标的X"] ∧
    GDS.buildDailySummary "2025-09-01" [] [] ["美股", "债券"] =
      GDS.buildDailySummary "2025-09-01" [] [] ["债券", "美股"] :=
  ⟨by decide, by decide,
    C1_determinism_amended.1 "2025-09-01" [] ["货币类", "黄金"] ["黄金", "货币类"]
      ["标的X", "标的Y"] ["标的Y", "标的X"] (by decide) (by decide),
    C1_determinism_amended.2 "2025-09-01" [] [] ["美股", "债券"] ["债券", "美股"]
      (by decide)⟩
